import Mathlib

/-!
Verification of the MQTT v5.0 wire-format codec (`MQTT.hpp`).

Byte buffers are modelled as `List Nat` (each element a byte value).
The source reports errors in-band through `uint32` return codes; we keep
that convention: a function returning a size returns a plain `Nat`, and
the distinguished large constants below are the error codes.  All
arithmetic stays in `Nat`; every quantity relevant to the claims is far
below `2 ^ 32`, and hypotheses in the theorems keep it there, so `Nat`
arithmetic agrees with the source's `uint32` arithmetic (the one place
where `uint32` wrap-around is reachable is modelled explicitly with a
truncating subtraction).
-/

namespace MQTTSpec

/-- Error code `BadData` from the `LocalError` enum (malformed data). -/
def BadData : Nat := 0xFFFFFFFF

/-- Error code `NotEnoughData` from the `LocalError` enum (truncated input). -/
def NotEnoughData : Nat := 0xFFFFFFFE

/-- Internal code `Shortcut` from the `LocalError` enum (legal early stop). -/
def Shortcut : Nat := 0xFFFFFFFD

/-- Smallest value treated as an error code (`MinErrorCode`). -/
def MinErrorCode : Nat := 0xFFFFFFFD

/-- Mirror of `isError`: a return value at or above `MinErrorCode` is an error. -/
def isError (value : Nat) : Bool := decide (MinErrorCode ≤ value)

/-- Mirror of `isShortcut`: tests for the `Shortcut` sentinel. -/
def isShortcut (value : Nat) : Bool := decide (value = Shortcut)

/-! Control packet type constants (`ControlPacketType` enum). -/

/-- Packet type code 0, reserved. -/
def RESERVED : Nat := 0
/-- Packet type code for CONNECT. -/
def CONNECT : Nat := 1
/-- Packet type code for CONNACK. -/
def CONNACK : Nat := 2
/-- Packet type code for PUBLISH. -/
def PUBLISH : Nat := 3
/-- Packet type code for PUBACK. -/
def PUBACK : Nat := 4
/-- Packet type code for PUBREC. -/
def PUBREC : Nat := 5
/-- Packet type code for PUBREL. -/
def PUBREL : Nat := 6
/-- Packet type code for PUBCOMP. -/
def PUBCOMP : Nat := 7
/-- Packet type code for SUBSCRIBE. -/
def SUBSCRIBE : Nat := 8
/-- Packet type code for SUBACK. -/
def SUBACK : Nat := 9
/-- Packet type code for UNSUBSCRIBE. -/
def UNSUBSCRIBE : Nat := 10
/-- Packet type code for UNSUBACK. -/
def UNSUBACK : Nat := 11
/-- Packet type code for PINGREQ. -/
def PINGREQ : Nat := 12
/-- Packet type code for PINGRESP. -/
def PINGRESP : Nat := 13
/-- Packet type code for DISCONNECT. -/
def DISCONNECT : Nat := 14
/-- Packet type code for AUTH. -/
def AUTH : Nat := 15

/-!
The variable byte integer (`struct VBInt`).  The C structure stores the
encoded form in a four byte array `value` together with the used byte
count `size`; we keep both fields.  Bytes of `value` beyond `size` are
never read by the source (nor by the model), so the model zero-pads
where the C leaves them unwritten.
-/

/-- State of a `VBInt`: the raw encoded bytes and the used byte count. -/
structure VBInt where
  value : List Nat
  size : Nat
deriving DecidableEq, Repr

/-- Mirror of `VBInt::operator=(uint32)`: branch on the four magnitude
bands and emit little-endian septets, continuation bit `0x80` on every
byte except the most significant one; values above `268435455` produce
the error state with `size = 0`. -/
def VBInt.assign (other : Nat) : VBInt :=
  if other > 268435455 then
    { value := [0xFF, 0xFF, 0xFF, 0xFF], size := 0 }
  else if other > 2097151 then
    { value := [(other &&& 0x7F) ||| 0x80,
                ((other &&& 0x3FFF) >>> 7) ||| 0x80,
                ((other &&& 0x1FFFFF) >>> 14) ||| 0x80,
                other >>> 21],
      size := 4 }
  else if other > 16383 then
    { value := [(other &&& 0x7F) ||| 0x80,
                ((other &&& 0x3FFF) >>> 7) ||| 0x80,
                other >>> 14,
                0],
      size := 3 }
  else if other > 127 then
    { value := [(other &&& 0x7F) ||| 0x80,
                other >>> 7,
                0, 0],
      size := 2 }
  else
    { value := [other, 0, 0, 0], size := 1 }

/-- Mirror of `VBInt::operator uint32()`: decode the stored septets; the
switch falls through from the used size down to byte 0, and `size = 0`
(or any size above 4) yields 0. -/
def VBInt.toUInt32 (v : VBInt) : Nat :=
  match v.size with
  | 0 => 0
  | 1 => v.value.getD 0 0 &&& 0x7F
  | 2 => ((v.value.getD 1 0 &&& 0x7F) <<< 7) ||| (v.value.getD 0 0 &&& 0x7F)
  | 3 => ((v.value.getD 2 0 &&& 0x7F) <<< 14) |||
         ((v.value.getD 1 0 &&& 0x7F) <<< 7) ||| (v.value.getD 0 0 &&& 0x7F)
  | 4 => (v.value.getD 3 0 <<< 21) ||| ((v.value.getD 2 0 &&& 0x7F) <<< 14) |||
         ((v.value.getD 1 0 &&& 0x7F) <<< 7) ||| (v.value.getD 0 0 &&& 0x7F)
  | _ + 5 => 0

/-- Mirror of `VBInt::check()`: the used size is 1..4 and the last used
byte has its continuation bit clear. -/
def VBInt.check (v : VBInt) : Bool :=
  decide (0 < v.size) && decide (v.size < 5) &&
    decide ((v.value.getD (v.size - 1) 0) &&& 0x80 = 0)

/-- Mirror of `VBInt::getSize()`. -/
def VBInt.getSize (v : VBInt) : Nat := v.size

/-- Mirror of `VBInt::copyInto`: copy the first `size` stored bytes. -/
def VBInt.copyInto (v : VBInt) : List Nat := v.value.take v.size

/-- Mirror of `VBInt::readFrom`: read bytes while the high bit is set,
running out of input is `NotEnoughData`.  The loop post-increments
`size` before breaking, so whenever a fourth byte is stored the final
`return size < 4 ? size : BadData` sees `size == 4` and returns
`BadData` — even when that fourth byte has its high bit clear and so
terminates a valid encoding.  Returns the new state and the return code
(bytes consumed on success). -/
def VBInt.readFrom (buffer : List Nat) : VBInt × Nat :=
  match buffer with
  | [] => (⟨[], 0⟩, NotEnoughData)
  | b0 :: t0 =>
    if b0 < 0x80 then (⟨[b0], 1⟩, 1) else
    match t0 with
    | [] => (⟨[b0], 1⟩, NotEnoughData)
    | b1 :: t1 =>
      if b1 < 0x80 then (⟨[b0, b1], 2⟩, 2) else
      match t1 with
      | [] => (⟨[b0, b1], 2⟩, NotEnoughData)
      | b2 :: t2 =>
        if b2 < 0x80 then (⟨[b0, b1, b2], 3⟩, 3) else
        match t2 with
        | [] => (⟨[b0, b1, b2], 3⟩, NotEnoughData)
        | b3 :: _ => (⟨[b0, b1, b2, b3], 4⟩, BadData)

/-- Encoded size of a variable byte integer by magnitude band, as the
spec describes it (`vbint_size`). -/
def vbintSize (n : Nat) : Nat :=
  if n ≤ 127 then 1 else if n ≤ 16383 then 2 else if n ≤ 2097151 then 3 else 4

/-! Arithmetic bridges for the bit operations used by the codec. -/

/-- Masking with `0x7F` is reduction modulo 128. -/
theorem and_0x7F_eq_mod (n : Nat) : n &&& 0x7F = n % 128 :=
  Nat.and_pow_two_sub_one_eq_mod n 7

/-- Masking with `0x3FFF` is reduction modulo `2 ^ 14`. -/
theorem and_0x3FFF_eq_mod (n : Nat) : n &&& 0x3FFF = n % 16384 :=
  Nat.and_pow_two_sub_one_eq_mod n 14

/-- Masking with `0x1FFFFF` is reduction modulo `2 ^ 21`. -/
theorem and_0x1FFFFF_eq_mod (n : Nat) : n &&& 0x1FFFFF = n % 2097152 :=
  Nat.and_pow_two_sub_one_eq_mod n 21

/-- Setting the continuation bit on a septet adds 128. -/
theorem or_0x80_eq_add (a : Nat) (h : a < 128) : a ||| 0x80 = a + 128 := by
  have := Nat.mul_add_lt_is_or (i := 7) (b := a) h 1
  simpa [Nat.lor_comm, Nat.add_comm] using this.symm

/-- Clearing the continuation bit of a septet with the bit set gives the
septet back. -/
theorem add_128_and_0x7F (a : Nat) (h : a < 128) : (a + 128) &&& 0x7F = a := by
  rw [and_0x7F_eq_mod]
  omega

/-- A value below 128 is untouched by the `0x7F` mask. -/
theorem and_0x7F_of_lt (a : Nat) (h : a < 128) : a &&& 0x7F = a := by
  rw [and_0x7F_eq_mod]
  omega

/-- A value below 128 has the `0x80` bit clear. -/
theorem and_0x80_of_lt (a : Nat) (h : a < 128) : a &&& 0x80 = 0 := by
  have h1 : a &&& 0x80 = a % 256 &&& 0x80 := by
    rw [Nat.mod_eq_of_lt (by omega)]
  have h2 : a % 2 ^ 8 &&& 2 ^ 7 = (Nat.testBit (a % 2 ^ 8) 7).toNat * 2 ^ 7 :=
    Nat.and_two_pow (a % 2 ^ 8) 7
  have h3 : Nat.testBit a 7 = false := Nat.testBit_lt_two_pow h
  have h4 : (0x80 : Nat) = 2 ^ 7 := by norm_num
  rw [h4, Nat.and_two_pow, h3]
  simp

/-- Joining a shifted high part onto a low part below the shift is
addition. -/
theorem shl_or_eq_add (a b k : Nat) (h : b < 2 ^ k) :
    (a <<< k) ||| b = a * 2 ^ k + b := by
  have h2 := (Nat.mul_add_lt_is_or (i := k) (b := b) h a).symm
  rw [Nat.shiftLeft_eq, Nat.mul_comm a (2 ^ k), h2, Nat.mul_comm]

/-- Joining with a bitwise or is addition when the left side is a
multiple of a power of two bounding the right side. -/
theorem or_eq_add_of_dvd {m a b : Nat} (hm : ∃ k, m = 2 ^ k) (ha : m ∣ a)
    (hb : b < m) : a ||| b = a + b := by
  obtain ⟨k, rfl⟩ := hm
  obtain ⟨q, rfl⟩ := ha
  exact (Nat.mul_add_lt_is_or hb q).symm

/-- Closed form of `VBInt.assign` on the one-byte band. -/
theorem vbint_assign_band1 (n : Nat) (h : n ≤ 127) :
    VBInt.assign n = ⟨[n, 0, 0, 0], 1⟩ := by
  unfold VBInt.assign
  rw [if_neg (by omega), if_neg (by omega), if_neg (by omega), if_neg (by omega)]

/-- Closed form of `VBInt.assign` on the two-byte band. -/
theorem vbint_assign_band2 (n : Nat) (h1 : 127 < n) (h2 : n ≤ 16383) :
    VBInt.assign n = ⟨[n % 128 + 128, n / 128, 0, 0], 2⟩ := by
  have e0 : n &&& 0x7F = n % 128 := and_0x7F_eq_mod n
  have s7 : n >>> 7 = n / 128 := by rw [Nat.shiftRight_eq_div_pow]
  have o0 : n % 128 ||| 0x80 = n % 128 + 128 := or_0x80_eq_add _ (by omega)
  unfold VBInt.assign
  rw [if_neg (by omega), if_neg (by omega), if_neg (by omega), if_pos (by omega)]
  rw [e0, s7, o0]

/-- Closed form of `VBInt.assign` on the three-byte band. -/
theorem vbint_assign_band3 (n : Nat) (h1 : 16383 < n) (h2 : n ≤ 2097151) :
    VBInt.assign n =
      ⟨[n % 128 + 128, n % 16384 / 128 + 128, n / 16384, 0], 3⟩ := by
  have e0 : n &&& 0x7F = n % 128 := and_0x7F_eq_mod n
  have e1 : n &&& 0x3FFF = n % 16384 := and_0x3FFF_eq_mod n
  have s7 : (n % 16384) >>> 7 = n % 16384 / 128 := by rw [Nat.shiftRight_eq_div_pow]
  have s14 : n >>> 14 = n / 16384 := by rw [Nat.shiftRight_eq_div_pow]
  have o0 : n % 128 ||| 0x80 = n % 128 + 128 := or_0x80_eq_add _ (by omega)
  have o1 : n % 16384 / 128 ||| 0x80 = n % 16384 / 128 + 128 :=
    or_0x80_eq_add _ (by omega)
  unfold VBInt.assign
  rw [if_neg (by omega), if_neg (by omega), if_pos (by omega)]
  rw [e0, e1, s7, s14, o0, o1]

/-- Closed form of `VBInt.assign` on the four-byte band. -/
theorem vbint_assign_band4 (n : Nat) (h1 : 2097151 < n) (h2 : n ≤ 268435455) :
    VBInt.assign n =
      ⟨[n % 128 + 128, n % 16384 / 128 + 128, n % 2097152 / 16384 + 128,
        n / 2097152], 4⟩ := by
  have e0 : n &&& 0x7F = n % 128 := and_0x7F_eq_mod n
  have e1 : n &&& 0x3FFF = n % 16384 := and_0x3FFF_eq_mod n
  have e2 : n &&& 0x1FFFFF = n % 2097152 := and_0x1FFFFF_eq_mod n
  have s7 : (n % 16384) >>> 7 = n % 16384 / 128 := by rw [Nat.shiftRight_eq_div_pow]
  have s14 : (n % 2097152) >>> 14 = n % 2097152 / 16384 := by
    rw [Nat.shiftRight_eq_div_pow]
  have s21 : n >>> 21 = n / 2097152 := by rw [Nat.shiftRight_eq_div_pow]
  have o0 : n % 128 ||| 0x80 = n % 128 + 128 := or_0x80_eq_add _ (by omega)
  have o1 : n % 16384 / 128 ||| 0x80 = n % 16384 / 128 + 128 :=
    or_0x80_eq_add _ (by omega)
  have o2 : n % 2097152 / 16384 ||| 0x80 = n % 2097152 / 16384 + 128 :=
    or_0x80_eq_add _ (by omega)
  unfold VBInt.assign
  rw [if_neg (by omega), if_pos (by omega)]
  rw [e0, e1, e2, s7, s14, s21, o0, o1, o2]

/-- Shifting left by 7 multiplies by 128. -/
theorem shl7_eq (x : Nat) : x <<< 7 = x * 128 := by
  rw [Nat.shiftLeft_eq]

/-- Shifting left by 14 multiplies by 16384. -/
theorem shl14_eq (x : Nat) : x <<< 14 = x * 16384 := by
  rw [Nat.shiftLeft_eq]

/-- Shifting left by 21 multiplies by 2097152. -/
theorem shl21_eq (x : Nat) : x <<< 21 = x * 2097152 := by
  rw [Nat.shiftLeft_eq]


/-- Evaluation of the decoder on a one-byte state. -/
theorem toUInt32_one (a : Nat) : VBInt.toUInt32 ⟨[a], 1⟩ = a &&& 0x7F := rfl

/-- Evaluation of the decoder on a two-byte state. -/
theorem toUInt32_two (a b : Nat) :
    VBInt.toUInt32 ⟨[a, b], 2⟩ = ((b &&& 0x7F) <<< 7) ||| (a &&& 0x7F) := rfl

/-- Evaluation of the decoder on a three-byte state. -/
theorem toUInt32_three (a b c : Nat) :
    VBInt.toUInt32 ⟨[a, b, c], 3⟩ =
      ((c &&& 0x7F) <<< 14) ||| ((b &&& 0x7F) <<< 7) ||| (a &&& 0x7F) := rfl

/-- Evaluation of the decoder on a four-byte state. -/
theorem toUInt32_four (a b c d : Nat) :
    VBInt.toUInt32 ⟨[a, b, c, d], 4⟩ =
      (d <<< 21) ||| ((c &&& 0x7F) <<< 14) ||| ((b &&& 0x7F) <<< 7) |||
        (a &&& 0x7F) := rfl

/-- Evaluation of `VBInt.check` when one byte is used. -/
theorem vbint_check_one (a b c d : Nat) :
    VBInt.check ⟨[a, b, c, d], 1⟩ = decide (a &&& 0x80 = 0) := by
  simp [VBInt.check]

/-- Evaluation of `VBInt.check` when two bytes are used. -/
theorem vbint_check_two (a b c d : Nat) :
    VBInt.check ⟨[a, b, c, d], 2⟩ = decide (b &&& 0x80 = 0) := by
  simp [VBInt.check]

/-- Evaluation of `VBInt.check` when three bytes are used. -/
theorem vbint_check_three (a b c d : Nat) :
    VBInt.check ⟨[a, b, c, d], 3⟩ = decide (c &&& 0x80 = 0) := by
  simp [VBInt.check]

/-- Evaluation of `VBInt.check` when four bytes are used. -/
theorem vbint_check_four (a b c d : Nat) :
    VBInt.check ⟨[a, b, c, d], 4⟩ = decide (d &&& 0x80 = 0) := by
  simp [VBInt.check]

/-- C2: the claimed VBInt round-trip holds only on the one-, two- and
three-byte bands (`n` up to 2097151): there encode-then-decode yields
`n` again, consumes exactly `vbintSize n` bytes, and the encoding
satisfies `VBInt::check`.  On the four-byte band the claim FAILS
against the code: the encoding still occupies four bytes whose last
byte has the high bit clear (`check` holds), but `VBInt::readFrom`
post-increments `size` to 4 before breaking out of its loop, so its
final `size < 4 ? size : BadData` returns `BadData` for every read
consuming four bytes — the maximum value 268435455 does not round-trip
at all. -/
theorem vbint_roundtrip_bug (n : Nat) (h : n ≤ 2097151) :
    ((VBInt.readFrom (VBInt.assign n).copyInto).2 = vbintSize n ∧
     (VBInt.readFrom (VBInt.assign n).copyInto).1.toUInt32 = n ∧
     (VBInt.assign n).copyInto.length = vbintSize n ∧
     (VBInt.assign n).check = true) ∧
    (∀ m, 2097151 < m → m ≤ 268435455 →
      (VBInt.assign m).copyInto.length = 4 ∧
      (VBInt.assign m).check = true ∧
      (VBInt.readFrom (VBInt.assign m).copyInto).2 = BadData) := by
  constructor
  · by_cases h1 : n ≤ 127
    · have hsz : vbintSize n = 1 := by unfold vbintSize; rw [if_pos h1]
      rw [vbint_assign_band1 n h1, hsz]
      have hc : VBInt.copyInto ⟨[n, 0, 0, 0], 1⟩ = [n] := rfl
      rw [hc]
      have hr : VBInt.readFrom [n] = (⟨[n], 1⟩, 1) := by
        simp only [VBInt.readFrom]
        rw [if_pos (show n < 0x80 by omega)]
      rw [hr]
      refine ⟨rfl, ?_, rfl, ?_⟩
      · rw [toUInt32_one, and_0x7F_of_lt n (by omega)]
      · rw [vbint_check_one, and_0x80_of_lt n (by omega)]
        simp
    · by_cases h2 : n ≤ 16383
      · have hsz : vbintSize n = 2 := by
          unfold vbintSize
          rw [if_neg (by omega), if_pos h2]
        rw [vbint_assign_band2 n (by omega) h2, hsz]
        have hc : VBInt.copyInto ⟨[n % 128 + 128, n / 128, 0, 0], 2⟩ =
            [n % 128 + 128, n / 128] := rfl
        rw [hc]
        have hr : VBInt.readFrom [n % 128 + 128, n / 128] =
            (⟨[n % 128 + 128, n / 128], 2⟩, 2) := by
          simp only [VBInt.readFrom]
          rw [if_neg (show ¬ (n % 128 + 128 < 0x80) by omega),
            if_pos (show n / 128 < 0x80 by omega)]
        rw [hr]
        refine ⟨rfl, ?_, rfl, ?_⟩
        · rw [toUInt32_two, and_0x7F_of_lt (n / 128) (by omega),
            add_128_and_0x7F (n % 128) (by omega), shl7_eq]
          rw [or_eq_add_of_dvd ⟨7, by norm_num⟩ (dvd_mul_left 128 (n / 128))
            (by omega)]
          omega
        · rw [vbint_check_two, and_0x80_of_lt (n / 128) (by omega)]
          simp
      · have hsz : vbintSize n = 3 := by
          unfold vbintSize
          rw [if_neg (by omega), if_neg (by omega), if_pos h]
        rw [vbint_assign_band3 n (by omega) h, hsz]
        have hc : VBInt.copyInto
            ⟨[n % 128 + 128, n % 16384 / 128 + 128, n / 16384, 0], 3⟩ =
            [n % 128 + 128, n % 16384 / 128 + 128, n / 16384] := rfl
        rw [hc]
        have hr : VBInt.readFrom [n % 128 + 128, n % 16384 / 128 + 128,
            n / 16384] =
            (⟨[n % 128 + 128, n % 16384 / 128 + 128, n / 16384], 3⟩, 3) := by
          simp only [VBInt.readFrom]
          rw [if_neg (show ¬ (n % 128 + 128 < 0x80) by omega),
            if_neg (show ¬ (n % 16384 / 128 + 128 < 0x80) by omega),
            if_pos (show n / 16384 < 0x80 by omega)]
        rw [hr]
        refine ⟨rfl, ?_, rfl, ?_⟩
        · rw [toUInt32_three, and_0x7F_of_lt (n / 16384) (by omega),
            add_128_and_0x7F (n % 16384 / 128) (by omega),
            add_128_and_0x7F (n % 128) (by omega), shl14_eq, shl7_eq]
          rw [or_eq_add_of_dvd ⟨14, by norm_num⟩
            (dvd_mul_left 16384 (n / 16384)) (by omega)]
          rw [or_eq_add_of_dvd ⟨7, by norm_num⟩
            (dvd_add ⟨n / 16384 * 128, by ring⟩
              (dvd_mul_left 128 (n % 16384 / 128)))
            (by omega)]
          omega
        · rw [vbint_check_three, and_0x80_of_lt (n / 16384) (by omega)]
          simp
  · intro m hm1 hm2
    rw [vbint_assign_band4 m hm1 hm2]
    have hc : VBInt.copyInto
        ⟨[m % 128 + 128, m % 16384 / 128 + 128, m % 2097152 / 16384 + 128,
          m / 2097152], 4⟩ =
        [m % 128 + 128, m % 16384 / 128 + 128, m % 2097152 / 16384 + 128,
          m / 2097152] := rfl
    rw [hc]
    refine ⟨rfl, ?_, ?_⟩
    · rw [vbint_check_four, and_0x80_of_lt (m / 2097152) (by omega)]
      simp
    · have hr : VBInt.readFrom
          [m % 128 + 128, m % 16384 / 128 + 128, m % 2097152 / 16384 + 128,
            m / 2097152] =
          (⟨[m % 128 + 128, m % 16384 / 128 + 128,
            m % 2097152 / 16384 + 128, m / 2097152], 4⟩, BadData) := by
        simp only [VBInt.readFrom]
        rw [if_neg (show ¬ (m % 128 + 128 < 0x80) by omega),
          if_neg (show ¬ (m % 16384 / 128 + 128 < 0x80) by omega),
          if_neg (show ¬ (m % 2097152 / 16384 + 128 < 0x80) by omega)]
      rw [hr]

/-- Witness for `vbint_roundtrip_bug`: 2097151 (the top of the
three-byte band) round-trips, while the four-byte encoding of the
maximum value 268435455 is a valid encoding (`check` holds) that
`readFrom` nevertheless rejects as `BadData`. -/
theorem vbint_roundtrip_bug_witness :
    (VBInt.readFrom (VBInt.assign 2097151).copyInto).2 = vbintSize 2097151 ∧
    (VBInt.readFrom (VBInt.assign 2097151).copyInto).1.toUInt32 = 2097151 ∧
    (VBInt.assign 268435455).check = true ∧
    (VBInt.readFrom (VBInt.assign 268435455).copyInto).2 = BadData :=
  ⟨(vbint_roundtrip_bug 2097151 (by decide)).1.1,
    (vbint_roundtrip_bug 2097151 (by decide)).1.2.1,
    ((vbint_roundtrip_bug 0 (by decide)).2 268435455 (by decide)
      (by decide)).2.1,
    ((vbint_roundtrip_bug 0 (by decide)).2 268435455 (by decide)
      (by decide)).2.2⟩

/-!
Fixed header checking (`checkHeader` and `FixedHeaderType`).
-/

/-- Mirror of the local `expectedFlags` array inside `checkHeader`,
indexed by the packet type nibble. -/
def expectedFlags : List Nat := [0xF, 0, 0xF, 0, 0, 2, 0, 2, 0, 2, 0, 0, 0, 0, 0, 0]

/-- Mirror of `checkHeader`: require two bytes, validate the flag nibble
against `expectedFlags` (skipped for PUBLISH), then parse the
remaining-length VBInt and return `1 + vbint bytes + remaining length`
(or the error code). -/
def checkHeader (buffer : List Nat) : Nat :=
  if buffer.length < 2 then NotEnoughData
  else if (buffer.headD 0) >>> 4 ≠ PUBLISH ∧
      ((buffer.headD 0) &&& 0xF) ^^^ expectedFlags.getD ((buffer.headD 0) >>> 4) 0 ≠ 0 then
    BadData
  else
    let r := VBInt.readFrom (buffer.drop 1)
    if isError r.2 then r.2 else r.1.toUInt32 + r.2 + 1

/-- Mirror of `FixedHeaderType<type, flags>::check()`: compare the low
flag nibble of the stored first byte against the expected `flags`
template argument (`2` for PUBREL, SUBSCRIBE and UNSUBSCRIBE, `0` for
the other eleven non-PUBLISH types). -/
def fixedHeaderTypeCheck (flags typeAndFlags : Nat) : Bool :=
  (typeAndFlags &&& 0xF) == flags

/-- C1: the per-type flag table of the claim does not match the code.
The `expectedFlags` array inside `checkHeader` is shifted against the
`ControlPacketType` enum, so `checkHeader` REJECTS the valid PUBREL
first byte `0x62` (flag nibble 2, accepted by the code's own
`FixedHeaderType<PUBREL, 2>::check`), REJECTS the valid CONNACK first
byte `0x20`, and ACCEPTS the RESERVED first byte `0x0F`, returning a
total frame size of 2 instead of `BadData`. -/
theorem checkHeader_flag_table_bug :
    checkHeader [0x62, 0x00] = BadData ∧
    fixedHeaderTypeCheck 2 0x62 = true ∧
    checkHeader [0x20, 0x00] = BadData ∧
    fixedHeaderTypeCheck 0 0x20 = true ∧
    checkHeader [0x0F, 0x00] = 2 := by
  refine ⟨?_, by decide, ?_, by decide, ?_⟩ <;> decide

/-!
Length-prefixed strings and binary data.  `DynamicString`,
`DynamicStringView`, `DynamicBinaryData` and `DynamicBinDataView` share
one wire layout: a big-endian `uint16` length followed by that many raw
bytes.  The model keeps only the byte list; the C `length` field always
equals the byte count (encode-side claims carry the `< 65536`
hypothesis that makes the `uint16` exact), and the owning/borrowing
distinction (copying versus aliasing the source buffer) has no
observable effect on the byte level we verify.
-/

/-- Big-endian bytes of a 16-bit value (`htons` plus `memcpy`). -/
def be16 (n : Nat) : List Nat := [n / 256 % 256, n % 256]

/-- Big-endian bytes of a 32-bit value. -/
def be32 (n : Nat) : List Nat :=
  [n / 16777216 % 256, n / 65536 % 256, n / 256 % 256, n % 256]

/-- Model of `DynamicString` (and its view/binary siblings): the raw
content bytes. -/
structure DynamicString where
  data : List Nat
deriving DecidableEq, Repr

/-- Mirror of `DynamicString::getSize()`: content length plus the two
length-prefix bytes. -/
def DynamicString.getSize (s : DynamicString) : Nat := s.data.length + 2

/-- Mirror of `DynamicString::copyInto`: big-endian length then content. -/
def DynamicString.copyInto (s : DynamicString) : List Nat :=
  be16 s.data.length ++ s.data

/-- Mirror of `DynamicString::readFrom`: read the big-endian length,
check availability, take that many content bytes.  Returns the new
value and the return code (consumed bytes on success). -/
def DynamicString.readFrom (buffer : List Nat) : DynamicString × Nat :=
  if buffer.length < 2 then (⟨[]⟩, NotEnoughData)
  else
    let len := buffer.getD 0 0 * 256 + buffer.getD 1 0
    if len + 2 > buffer.length then (⟨[]⟩, NotEnoughData)
    else (⟨(buffer.drop 2).take len⟩, len + 2)

/-- Mirror of `DynamicString::check()`.  The source tests the data
pointer / length consistency of the heap state; every string reachable
in this byte-level model satisfies it. -/
def DynamicString.check (_ : DynamicString) : Bool := true

/-- Encoding bound of the `uint16` length field. -/
def DynamicString.valid (s : DynamicString) : Bool := decide (s.data.length < 65536)

/-- Model of `DynamicStringPair`: the User Property key/value pair. -/
structure DynamicStringPair where
  key : DynamicString
  value : DynamicString
deriving DecidableEq, Repr

/-- Mirror of `DynamicStringPair::getSize()`. -/
def DynamicStringPair.getSize (p : DynamicStringPair) : Nat :=
  p.key.getSize + p.value.getSize

/-- Mirror of `DynamicStringPair::copyInto`. -/
def DynamicStringPair.copyInto (p : DynamicStringPair) : List Nat :=
  p.key.copyInto ++ p.value.copyInto

/-- Mirror of `DynamicStringPair::readFrom`: key then value. -/
def DynamicStringPair.readFrom (buffer : List Nat) : DynamicStringPair × Nat :=
  let rk := DynamicString.readFrom buffer
  if isError rk.2 then (⟨⟨[]⟩, ⟨[]⟩⟩, rk.2)
  else
    let rv := DynamicString.readFrom (buffer.drop rk.2)
    if isError rv.2 then (⟨⟨[]⟩, ⟨[]⟩⟩, rv.2)
    else (⟨rk.1, rv.1⟩, rk.2 + rv.2)

/-- Serialized length of a string equals its size query. -/
theorem dynString_copyInto_length (s : DynamicString) :
    s.copyInto.length = s.getSize := by
  simp [DynamicString.copyInto, DynamicString.getSize, be16]

/-- Serialized length of a pair equals its size query. -/
theorem dynStringPair_copyInto_length (p : DynamicStringPair) :
    p.copyInto.length = p.getSize := by
  simp [DynamicStringPair.copyInto, DynamicStringPair.getSize,
    dynString_copyInto_length]

/-!
Properties (section 2.2.2 of the standard).  A property is a one-byte
tag followed by a value whose shape is fixed by the tag; the heap
`Property<T>` template instances are modelled by one inductive of the
seven value shapes.
-/

/-- Value of a property: one of the seven wire shapes. -/
inductive PropValue where
  | u8 (v : Nat)
  | u16 (v : Nat)
  | u32 (v : Nat)
  | vb (v : VBInt)
  | str (s : DynamicString)
  | bin (b : DynamicString)
  | pair (p : DynamicStringPair)
deriving DecidableEq, Repr

/-- Serialized size of a property value (`sizeof(value)` for the POD
shapes, `value.getSize()` for the dynamic ones). -/
def PropValue.getSize : PropValue → Nat
  | .u8 _ => 1
  | .u16 _ => 2
  | .u32 _ => 4
  | .vb v => v.getSize
  | .str s => s.getSize
  | .bin b => b.getSize
  | .pair p => p.getSize

/-- Serialized bytes of a property value.  The POD shapes are written
big-endian; the `% 256` truncations state the `uint8`/`uint16`/`uint32`
width of the C fields. -/
def PropValue.copyInto : PropValue → List Nat
  | .u8 v => [v % 256]
  | .u16 v => be16 v
  | .u32 v => be32 v
  | .vb v => v.copyInto
  | .str s => s.copyInto
  | .bin b => b.copyInto
  | .pair p => p.copyInto

/-- Validity check of a property value (`value.check()` in the dynamic
shapes, vacuous for POD shapes). -/
def PropValue.check : PropValue → Bool
  | .vb v => v.check
  | .str s => s.check
  | .bin b => b.check
  | .pair p => p.key.check && p.value.check
  | _ => true

/-- Structural soundness needed for byte-exact serialization: a VBInt
value must store at least `size` bytes (true of every VBInt the source
builds through `operator=`). -/
def PropValue.wf : PropValue → Bool
  | .vb v => decide (v.size ≤ v.value.length)
  | _ => true

/-- Model of `PropertyBase` and `Property<T>`: the tag byte and the
typed value. -/
structure Property where
  type : Nat
  value : PropValue
deriving DecidableEq, Repr

/-- Mirror of `Property<T>::getSize()`: the tag byte plus the value. -/
def Property.getSize (p : Property) : Nat := 1 + p.value.getSize

/-- Mirror of `Property<T>::copyInto`: the tag byte then the value. -/
def Property.copyInto (p : Property) : List Nat := p.type % 256 :: p.value.copyInto

/-- Mirror of `Property<T>::check()`: tag below `0x80` and value check. -/
def Property.check (p : Property) : Bool := decide (p.type < 0x80) && p.value.check

/-- Mirror of `PropertyListNode::check()`.  The source loop
`while (u->next) { if (!u->property->check()) return false; u = u->next; }`
inspects every node that has a successor, so the LAST property of the
list is never checked. -/
def propListNodeCheck : List Property → Bool
  | [] => true
  | [_] => true
  | p :: q :: rest => p.check && propListNodeCheck (q :: rest)

/-- Mirror of the `allowedProperties` table inside `isAllowedProperty`:
entry `i` is `ExpectedProperty<(PropertyType)(i+1)>::AllowedMask`, a bit
set of packet types (bit 0 doubles as the virtual Will context). -/
def allowedProperties : List Nat :=
  [ (1 <<< PUBLISH) ||| 1,
    (1 <<< PUBLISH) ||| 1,
    (1 <<< PUBLISH) ||| 1,
    0, 0, 0, 0,
    (1 <<< PUBLISH) ||| 1,
    (1 <<< PUBLISH) ||| 1,
    0,
    (1 <<< PUBLISH) ||| (1 <<< SUBSCRIBE),
    0, 0, 0, 0, 0,
    (1 <<< CONNECT) ||| (1 <<< CONNACK) ||| (1 <<< DISCONNECT),
    1 <<< CONNACK,
    1 <<< CONNACK,
    0,
    (1 <<< CONNECT) ||| (1 <<< CONNACK) ||| (1 <<< AUTH),
    (1 <<< CONNECT) ||| (1 <<< CONNACK) ||| (1 <<< AUTH),
    1 <<< CONNECT,
    1,
    1 <<< CONNECT,
    1 <<< CONNACK,
    0,
    (1 <<< CONNACK) ||| (1 <<< DISCONNECT),
    0, 0,
    (1 <<< CONNACK) ||| (1 <<< PUBACK) ||| (1 <<< PUBREC) ||| (1 <<< PUBREL) |||
      (1 <<< PUBCOMP) ||| (1 <<< SUBACK) ||| (1 <<< UNSUBACK) |||
      (1 <<< DISCONNECT) ||| (1 <<< AUTH),
    0,
    (1 <<< CONNECT) ||| (1 <<< CONNACK),
    (1 <<< CONNECT) ||| (1 <<< CONNACK),
    1 <<< PUBLISH,
    1 <<< CONNACK,
    1 <<< CONNACK,
    0xFFFF,
    (1 <<< CONNECT) ||| (1 <<< CONNACK),
    1 <<< CONNACK,
    1 <<< CONNACK,
    1 <<< CONNACK ]

/-- Mirror of `isAllowedProperty`: tag 0 and tags at or above
`MaxUsedPropertyType` (43) are never allowed; otherwise test the
packet-type bit of the tag's mask. -/
def isAllowedProperty (type ctype : Nat) : Bool :=
  if type = 0 ∨ 43 ≤ type then false
  else decide (0 < allowedProperties.getD (type - 1) 0 &&& (1 <<< ctype))

/-- Model of `Properties`: the length VBInt and the property list
(`head` pointer chain; the empty list is the null head). -/
structure Properties where
  length : VBInt
  head : List Property
deriving DecidableEq, Repr

/-- Mirror of `Properties::getSize()`: size of the length prefix plus
the DECLARED length (the stored VBInt value, not the recomputed sum). -/
def Properties.getSize (ps : Properties) : Nat :=
  ps.length.getSize + ps.length.toUInt32

/-- Mirror of `Properties::copyInto`: length prefix then each property. -/
def Properties.copyInto (ps : Properties) : List Nat :=
  ps.length.copyInto ++ (ps.head.map Property.copyInto).flatten

/-- Mirror of `Properties::check()`.  The C operator precedence makes
`length.check() && head ? head->check() : true` parse as
`(length.check() && head) ? head->check() : true`, so an invalid length
or an empty list yields TRUE. -/
def Properties.check (ps : Properties) : Bool :=
  if ps.length.check = true ∧ ps.head ≠ [] then propListNodeCheck ps.head else true

/-- Mirror of `Properties::checkPropertiesFor`: `check()` plus the
allowed-matrix test of EVERY property against the packet type. -/
def Properties.checkPropertiesFor (ps : Properties) (ctype : Nat) : Bool :=
  ps.check && ps.head.all (fun p => isAllowedProperty p.type ctype)

/-- Model of `WillMessage`: will properties, topic and payload. -/
structure WillMessage where
  willProperties : Properties
  willTopic : DynamicString
  willPayload : DynamicString
deriving DecidableEq, Repr

/-- Mirror of `WillMessage::getSize()`. -/
def WillMessage.getSize (w : WillMessage) : Nat :=
  w.willProperties.getSize + w.willTopic.getSize + w.willPayload.getSize

/-- Mirror of `WillMessage::copyInto`. -/
def WillMessage.copyInto (w : WillMessage) : List Nat :=
  w.willProperties.copyInto ++ w.willTopic.copyInto ++ w.willPayload.copyInto

/-- Mirror of `WillMessage::check()`: the will properties are validated
with `isAllowedProperty` against control packet type 0 (the reserved
code reused as the virtual Will context), then topic and payload are
checked. -/
def WillMessage.check (w : WillMessage) : Bool :=
  w.willProperties.check &&
    w.willProperties.head.all (fun p => isAllowedProperty p.type 0) &&
    w.willTopic.check && w.willPayload.check

/-- C7: `checkPropertiesFor` returns false exactly when `check()` fails
or some property of the list carries a tag whose allowed-matrix entry
does not include the packet type; will-message properties are validated
by `WillMessage::check` against the virtual Will context (packet type
code 0) instead of a real packet type; and the matrix rows behave as the
claim's examples state: Topic Alias (0x23) only in PUBLISH, Reason
String (0x1F) only in CONNACK, PUBACK, PUBREC, PUBREL, PUBCOMP, SUBACK,
UNSUBACK, DISCONNECT and AUTH, User Property (0x26) in every packet
type. -/
theorem checkPropertiesFor_rejects_disallowed (ps : Properties) (ctype : Nat)
    (w : WillMessage) :
    (ps.checkPropertiesFor ctype = false ↔
      ps.check = false ∨ ∃ p ∈ ps.head, isAllowedProperty p.type ctype = false) ∧
    (w.check = true ↔
      w.willProperties.check = true ∧
      ∀ p ∈ w.willProperties.head, isAllowedProperty p.type RESERVED = true) ∧
    (∀ c, c < 16 → (isAllowedProperty 0x23 c = true ↔ c = PUBLISH)) ∧
    (∀ c, c < 16 → (isAllowedProperty 0x1F c = true ↔
      c = CONNACK ∨ c = PUBACK ∨ c = PUBREC ∨ c = PUBREL ∨ c = PUBCOMP ∨
      c = SUBACK ∨ c = UNSUBACK ∨ c = DISCONNECT ∨ c = AUTH)) ∧
    (∀ c, c < 16 → isAllowedProperty 0x26 c = true) := by
  refine ⟨?_, ?_, by decide, by decide, by decide⟩
  · cases hc : ps.check with
    | false => simp [Properties.checkPropertiesFor, hc]
    | true =>
      simp [Properties.checkPropertiesFor, hc, List.all_eq_true]
  · simp [WillMessage.check, DynamicString.check, List.all_eq_true, RESERVED]

/-!
Per-packet fixed variable headers (`FixedField<type>`) — encode side and
the field state.  The CONNECT flags byte packs (LSB first) reserved,
cleanStart, willFlag, willQoS (2 bits), willRetain, passwordFlag,
usernameFlag.
-/

/-- Clean-start bit (bit 1) of the CONNECT flags byte. -/
def connectCleanStart (flags : Nat) : Bool := decide ((flags >>> 1) &&& 1 = 1)

/-- Will flag (bit 2) of the CONNECT flags byte. -/
def connectWillFlag (flags : Nat) : Bool := decide ((flags >>> 2) &&& 1 = 1)

/-- Password flag (bit 6) of the CONNECT flags byte. -/
def connectPasswordFlag (flags : Nat) : Bool := decide ((flags >>> 6) &&& 1 = 1)

/-- Username flag (bit 7) of the CONNECT flags byte. -/
def connectUsernameFlag (flags : Nat) : Bool := decide ((flags >>> 7) &&& 1 = 1)

/-- Model of `FixedField<CONNECT>`: six protocol-name bytes, protocol
version, flags byte, keep-alive seconds.  Each numeric field is a
`uint8`/`uint16` in the source. -/
structure FixedFieldCONNECT where
  protocolName : List Nat
  protocolVersion : Nat
  flags : Nat
  keepAlive : Nat
deriving DecidableEq, Repr

/-- Mirror of the memory-mapped `FixedField<CONNECT>` size: 10 packed
bytes. -/
def FixedFieldCONNECT.getSize (_ : FixedFieldCONNECT) : Nat := 10

/-- Serialized bytes of `FixedField<CONNECT>` (the packed struct written
with the keep-alive in network order). -/
def FixedFieldCONNECT.copyInto (f : FixedFieldCONNECT) : List Nat :=
  f.protocolName ++ [f.protocolVersion % 256, f.flags % 256] ++ be16 f.keepAlive

/-- Model of `FixedField<CONNACK>`: acknowledge flag and reason code. -/
structure FixedFieldCONNACK where
  acknowledgeFlag : Nat
  reasonCode : Nat
deriving DecidableEq, Repr

/-- Mirror of the memory-mapped `FixedField<CONNACK>` size: 2 bytes. -/
def FixedFieldCONNACK.getSize (_ : FixedFieldCONNACK) : Nat := 2

/-- Serialized bytes of `FixedField<CONNACK>`. -/
def FixedFieldCONNACK.copyInto (f : FixedFieldCONNACK) : List Nat :=
  [f.acknowledgeFlag % 256, f.reasonCode % 256]

/-- Model of `FixedFieldWithID` (SUBSCRIBE, SUBACK, UNSUBSCRIBE,
UNSUBACK): a big-endian packet identifier. -/
structure FixedFieldWithID where
  packetID : Nat
deriving DecidableEq, Repr

/-- Mirror of `FixedFieldWithID::getSize()`. -/
def FixedFieldWithID.getSize (_ : FixedFieldWithID) : Nat := 2

/-- Mirror of `FixedFieldWithID::copyInto`. -/
def FixedFieldWithID.copyInto (f : FixedFieldWithID) : List Nat := be16 f.packetID

/-- Mirror of `FixedFieldWithID::readFrom` given the packet's remaining
length (stored by `setRemainingLength`): read the identifier, then
signal `Shortcut` when the remaining length is exactly 2. -/
def FixedFieldWithID.readFrom (f : FixedFieldWithID) (remLength : Nat)
    (buffer : List Nat) : FixedFieldWithID × Nat :=
  if buffer.length < 2 then (f, NotEnoughData)
  else
    let pid := buffer.getD 0 0 * 256 + buffer.getD 1 0
    if remLength = 2 then (⟨pid⟩, Shortcut) else (⟨pid⟩, 2)

/-- Model of `FixedFieldWithIDAndReason` (PUBACK, PUBREC, PUBREL,
PUBCOMP): packet identifier and reason code. -/
structure FixedFieldWithIDAndReason where
  packetID : Nat
  reasonCode : Nat
deriving DecidableEq, Repr

/-- Mirror of `FixedFieldWithIDAndReason::getSize()`. -/
def FixedFieldWithIDAndReason.getSize (_ : FixedFieldWithIDAndReason) : Nat := 3

/-- Mirror of `FixedFieldWithIDAndReason::copyInto`. -/
def FixedFieldWithIDAndReason.copyInto (f : FixedFieldWithIDAndReason) : List Nat :=
  be16 f.packetID ++ [f.reasonCode % 256]

/-- Mirror of `FixedFieldWithIDAndReason::readFrom`: read the
identifier; with remaining length 2 stop by `Shortcut` leaving the
reason at its previous (default `Success`) value; otherwise read the
reason byte and stop by `Shortcut` when the remaining length is 3.
The source reads `buffer[2]` without a length check (its caller has
already verified the frame is complete); an out-of-range read is
modelled as 0. -/
def FixedFieldWithIDAndReason.readFrom (f : FixedFieldWithIDAndReason)
    (remLength : Nat) (buffer : List Nat) : FixedFieldWithIDAndReason × Nat :=
  if buffer.length < 2 then (f, NotEnoughData)
  else
    let pid := buffer.getD 0 0 * 256 + buffer.getD 1 0
    if remLength = 2 then ({ f with packetID := pid }, Shortcut)
    else
      let reason := buffer.getD 2 0
      if remLength = 3 then (⟨pid, reason⟩, Shortcut) else (⟨pid, reason⟩, 3)

/-- Model of `FixedField<DISCONNECT>` and `FixedField<AUTH>`: a single
reason code. -/
structure FixedFieldReason where
  reasonCode : Nat
deriving DecidableEq, Repr

/-- Mirror of `FixedField<DISCONNECT>::getSize()` (also AUTH). -/
def FixedFieldReason.getSize (_ : FixedFieldReason) : Nat := 1

/-- Mirror of `FixedField<DISCONNECT>::copyInto` (also AUTH). -/
def FixedFieldReason.copyInto (f : FixedFieldReason) : List Nat :=
  [f.reasonCode % 256]

/-- Mirror of `FixedField<DISCONNECT>::readFrom`: with remaining length
0 default the reason to `Success` and stop by `Shortcut`; otherwise the
source reads `buffer[1]` — the SECOND byte after the remaining-length
field, although its caller has already advanced the buffer past the
fixed header — then stops by `Shortcut` when the remaining length is 1.
An out-of-range read is modelled as 0. -/
def FixedFieldReason.readFromDisconnect (_f : FixedFieldReason) (remLength : Nat)
    (buffer : List Nat) : FixedFieldReason × Nat :=
  if remLength = 0 then (⟨0⟩, Shortcut)
  else
    let reason := buffer.getD 1 0
    if remLength = 1 then (⟨reason⟩, Shortcut) else (⟨reason⟩, 1)

/-- Mirror of `FixedField<AUTH>::readFrom`: like DISCONNECT (including
the `buffer[1]` read) but with no `Shortcut` for remaining length 1. -/
def FixedFieldReason.readFromAuth (_f : FixedFieldReason) (remLength : Nat)
    (buffer : List Nat) : FixedFieldReason × Nat :=
  if remLength = 0 then (⟨0⟩, Shortcut)
  else (⟨buffer.getD 1 0⟩, 1)

/-- Packet identifier presence for PUBLISH: mirror of
`FixedField<PUBLISH>::hasPacketID`, testing the QoS bits (mask 6) of the
header flags the constructor wired in (`setFlags(header.typeAndFlags)`). -/
def hasPacketID (flags : Nat) : Bool := decide (0 < flags &&& 6)

/-- Mirror of `FixedHeaderType<PUBLISH, 0>::getQoS()`. -/
def publishGetQoS (typeAndFlags : Nat) : Nat := (typeAndFlags &&& 0x6) >>> 1

/-- Model of `FixedField<PUBLISH>`: topic name and packet identifier;
the flags byte (pointer to the fixed header byte) is passed explicitly. -/
structure FixedFieldPUBLISH where
  topicName : DynamicString
  packetID : Nat
deriving DecidableEq, Repr

/-- Mirror of `FixedField<PUBLISH>::getSize()`: the topic plus two
identifier bytes exactly when the QoS bits are set. -/
def FixedFieldPUBLISH.getSize (f : FixedFieldPUBLISH) (flags : Nat) : Nat :=
  f.topicName.getSize + (if hasPacketID flags then 2 else 0)

/-- Mirror of `FixedField<PUBLISH>::copyInto`. -/
def FixedFieldPUBLISH.copyInto (f : FixedFieldPUBLISH) (flags : Nat) : List Nat :=
  f.topicName.copyInto ++ (if hasPacketID flags then be16 f.packetID else [])

/-- Mirror of `FixedField<PUBLISH>::readFrom`: topic, then the
identifier exactly when the QoS bits are set. -/
def FixedFieldPUBLISH.readFrom (f : FixedFieldPUBLISH) (flags : Nat)
    (buffer : List Nat) : FixedFieldPUBLISH × Nat :=
  let rt := DynamicString.readFrom buffer
  if isError rt.2 then (f, rt.2)
  else if hasPacketID flags then
    let rest := buffer.drop rt.2
    if rest.length < 2 then ({ f with topicName := rt.1 }, NotEnoughData)
    else (⟨rt.1, rest.getD 0 0 * 256 + rest.getD 1 0⟩, rt.2 + 2)
  else ({ f with topicName := rt.1 }, rt.2)

/-!
Payloads (encode side).
-/

/-- Model of `PayloadWithData` (PUBLISH, SUBACK, UNSUBACK): opaque bytes
plus the stored size (kept equal to the byte count by the source's
allocator). -/
structure PayloadWithData where
  data : List Nat
  size : Nat
deriving DecidableEq, Repr

/-- Mirror of `PayloadWithData::getSize()`. -/
def PayloadWithData.getSize (p : PayloadWithData) : Nat := p.size

/-- Mirror of `PayloadWithData::copyInto` (a `memcpy` of `size` bytes). -/
def PayloadWithData.copyInto (p : PayloadWithData) : List Nat := p.data.take p.size

/-- Mirror of `PayloadWithData::readFrom`. -/
def PayloadWithData.readFrom (p : PayloadWithData) (buffer : List Nat) :
    PayloadWithData × Nat :=
  if buffer.length < p.size then (p, NotEnoughData)
  else ({ p with data := buffer.take p.size }, p.size)

/-- Structural soundness of the stored size against the byte list. -/
def PayloadWithData.wf (p : PayloadWithData) : Bool := decide (p.data.length = p.size)

/-- Model of `Payload<CONNECT>`: client identifier, optional will
message, username and password; which trailing fields are written is
governed by the CONNECT flags the constructor wired in. -/
structure PayloadCONNECT where
  clientID : DynamicString
  willMessage : Option WillMessage
  username : DynamicString
  password : DynamicString
deriving DecidableEq, Repr

/-- Mirror of `Payload<CONNECT>::getSize` (with `getFilteredSize`): the
client identifier plus the flag-gated fields.  Dereferencing a missing
will message (undefined behaviour in the source) is modelled as size 0;
the validity predicate rules it out. -/
def PayloadCONNECT.getSize (p : PayloadCONNECT) (flags : Nat) : Nat :=
  p.clientID.getSize +
    ((if connectWillFlag flags then
        (match p.willMessage with | some w => w.getSize | none => 0) else 0) +
     (if connectUsernameFlag flags then p.username.getSize else 0) +
     (if connectPasswordFlag flags then p.password.getSize else 0))

/-- Mirror of `Payload<CONNECT>::copyInto`: client identifier, then will
message, username and password, each exactly when its flag is set. -/
def PayloadCONNECT.copyInto (p : PayloadCONNECT) (flags : Nat) : List Nat :=
  p.clientID.copyInto ++
    (if connectWillFlag flags then
      (match p.willMessage with | some w => w.copyInto | none => []) else []) ++
    (if connectUsernameFlag flags then p.username.copyInto else []) ++
    (if connectPasswordFlag flags then p.password.copyInto else [])

/-- Encoded size of a `SubscribeTopic` chain (`SubscribeTopic::getSize`
summed along the `next` pointers; the empty list is the null `topics`
pointer of `Payload<SUBSCRIBE>`, contributing 0). -/
def subscribeTopicsGetSize : List (DynamicString × Nat) → Nat
  | [] => 0
  | (t, _) :: rest => t.getSize + 1 + subscribeTopicsGetSize rest

/-- Serialized bytes of a `SubscribeTopic` chain: each topic string
followed by its options byte. -/
def subscribeTopicsCopyInto : List (DynamicString × Nat) → List Nat
  | [] => []
  | (t, opt) :: rest => t.copyInto ++ [opt % 256] ++ subscribeTopicsCopyInto rest

/-- Encoded size of an `UnsubscribeTopic` chain. -/
def unsubscribeTopicsGetSize : List DynamicString → Nat
  | [] => 0
  | t :: rest => t.getSize + unsubscribeTopicsGetSize rest

/-- Serialized bytes of an `UnsubscribeTopic` chain. -/
def unsubscribeTopicsCopyInto : List DynamicString → List Nat
  | [] => []
  | t :: rest => t.copyInto ++ unsubscribeTopicsCopyInto rest

/-!
Control packets.  `ControlPacket<type>` is a C++ template; the fourteen
instantiations are gathered in one inductive.  Every constructor's first
argument is the stored fixed-header byte `header.typeAndFlags` (a
`uint8`); for PUBLISH its low nibble carries the DUP/QoS/RETAIN flags
that `setFlags` wires into the fixed variable header and that gate the
packet identifier.
-/

/-- One control packet of any of the fourteen types. -/
inductive Packet where
  | connect (headerByte : Nat) (fvh : FixedFieldCONNECT) (props : Properties)
      (payload : PayloadCONNECT)
  | connack (headerByte : Nat) (fvh : FixedFieldCONNACK) (props : Properties)
  | publish (headerByte : Nat) (fvh : FixedFieldPUBLISH) (props : Properties)
      (payload : PayloadWithData)
  | puback (headerByte : Nat) (fvh : FixedFieldWithIDAndReason) (props : Properties)
  | pubrec (headerByte : Nat) (fvh : FixedFieldWithIDAndReason) (props : Properties)
  | pubrel (headerByte : Nat) (fvh : FixedFieldWithIDAndReason) (props : Properties)
  | pubcomp (headerByte : Nat) (fvh : FixedFieldWithIDAndReason) (props : Properties)
  | subscribe (headerByte : Nat) (fvh : FixedFieldWithID) (props : Properties)
      (topics : List (DynamicString × Nat))
  | suback (headerByte : Nat) (fvh : FixedFieldWithID) (props : Properties)
      (payload : PayloadWithData)
  | unsubscribe (headerByte : Nat) (fvh : FixedFieldWithID) (props : Properties)
      (topics : List DynamicString)
  | unsuback (headerByte : Nat) (fvh : FixedFieldWithID) (props : Properties)
      (payload : PayloadWithData)
  | pingreq (headerByte : Nat)
  | pingresp (headerByte : Nat)
  | disconnect (headerByte : Nat) (fvh : FixedFieldReason) (props : Properties)
  | auth (headerByte : Nat) (fvh : FixedFieldReason) (props : Properties)
deriving DecidableEq, Repr

/-- Stored fixed-header byte of a packet. -/
def Packet.headerByte : Packet → Nat
  | .connect hb _ _ _ => hb
  | .connack hb _ _ => hb
  | .publish hb _ _ _ => hb
  | .puback hb _ _ => hb
  | .pubrec hb _ _ => hb
  | .pubrel hb _ _ => hb
  | .pubcomp hb _ _ => hb
  | .subscribe hb _ _ _ => hb
  | .suback hb _ _ _ => hb
  | .unsubscribe hb _ _ _ => hb
  | .unsuback hb _ _ _ => hb
  | .pingreq hb => hb
  | .pingresp hb => hb
  | .disconnect hb _ _ => hb
  | .auth hb _ _ => hb

/-- Remaining length computed by `computePacketSize(true)`:
`fixedVariableHeader.getSize() + props.getSize() + payload.getSize()`
(0 for the ping packets, which have neither). -/
def Packet.bodySize : Packet → Nat
  | .connect _ fvh props payload =>
      fvh.getSize + props.getSize + payload.getSize fvh.flags
  | .connack _ fvh props => fvh.getSize + props.getSize
  | .publish hb fvh props payload =>
      fvh.getSize hb + props.getSize + payload.getSize
  | .puback _ fvh props | .pubrec _ fvh props | .pubrel _ fvh props
  | .pubcomp _ fvh props => fvh.getSize + props.getSize
  | .subscribe _ fvh props topics =>
      fvh.getSize + props.getSize + subscribeTopicsGetSize topics
  | .suback _ fvh props payload => fvh.getSize + props.getSize + payload.getSize
  | .unsubscribe _ fvh props topics =>
      fvh.getSize + props.getSize + unsubscribeTopicsGetSize topics
  | .unsuback _ fvh props payload => fvh.getSize + props.getSize + payload.getSize
  | .pingreq _ => 0
  | .pingresp _ => 0
  | .disconnect _ fvh props => fvh.getSize + props.getSize
  | .auth _ fvh props => fvh.getSize + props.getSize

/-- Mirror of `ControlPacket<type>::computePacketSize(true)` (and
`PingTemplate::computePacketSize` for the ping packets): store the
remaining length and return `remaining + 1 + vbint bytes`. -/
def Packet.computePacketSize : Packet → Nat
  | .pingreq _ => 2
  | .pingresp _ => 2
  | p => p.bodySize + 1 + (VBInt.assign p.bodySize).getSize

/-- Body bytes written by `copyInto` after the header byte and the
remaining-length VBInt: fixed variable header, properties, payload. -/
def Packet.bodyBytes : Packet → List Nat
  | .connect _ fvh props payload =>
      fvh.copyInto ++ props.copyInto ++ payload.copyInto fvh.flags
  | .connack _ fvh props => fvh.copyInto ++ props.copyInto
  | .publish hb fvh props payload =>
      fvh.copyInto hb ++ props.copyInto ++ payload.copyInto
  | .puback _ fvh props | .pubrec _ fvh props | .pubrel _ fvh props
  | .pubcomp _ fvh props => fvh.copyInto ++ props.copyInto
  | .subscribe _ fvh props topics =>
      fvh.copyInto ++ props.copyInto ++ subscribeTopicsCopyInto topics
  | .suback _ fvh props payload =>
      fvh.copyInto ++ props.copyInto ++ payload.copyInto
  | .unsubscribe _ fvh props topics =>
      fvh.copyInto ++ props.copyInto ++ unsubscribeTopicsCopyInto topics
  | .unsuback _ fvh props payload =>
      fvh.copyInto ++ props.copyInto ++ payload.copyInto
  | .pingreq _ => []
  | .pingresp _ => []
  | .disconnect _ fvh props => fvh.copyInto ++ props.copyInto
  | .auth _ fvh props => fvh.copyInto ++ props.copyInto

/-- Mirror of `ControlPacket<type>::copyInto` run after
`computePacketSize` stored the remaining length (the encode flow of the
spec): header byte, remaining-length VBInt, then the body.  Ping packets
serialize as exactly `{type << 4, 0x00}`. -/
def Packet.serialize : Packet → List Nat
  | .pingreq hb => [hb % 256, 0]
  | .pingresp hb => [hb % 256, 0]
  | p => p.headerByte % 256 :: (VBInt.assign p.bodySize).copyInto ++ p.bodyBytes

/-!
Validity of an encode-side packet body.  These predicates collect the
invariants the source maintains for every packet it builds: the declared
property length equals the sum of the encoded property sizes (kept by
`Properties::append`), VBInt states store their used bytes, string
lengths fit the `uint16` prefix, the data payload's stored size matches
its allocation, a will message is present when its flag is set, and the
remaining length is encodable.
-/

/-- Structural soundness of a property list for serialization. -/
def Properties.wf (ps : Properties) : Bool :=
  decide (ps.length.toUInt32 = (ps.head.map Property.getSize).sum) &&
    decide (ps.length.size ≤ ps.length.value.length) &&
    ps.head.all (fun p => p.value.wf)

/-- Structural soundness of a will message for serialization. -/
def WillMessage.wf (w : WillMessage) : Bool :=
  w.willProperties.wf && w.willTopic.valid && w.willPayload.valid

/-- Structural soundness of a CONNECT payload for serialization. -/
def PayloadCONNECT.wf (p : PayloadCONNECT) (flags : Nat) : Bool :=
  p.clientID.valid &&
    (!connectWillFlag flags ||
      (match p.willMessage with | some w => w.wf | none => false)) &&
    (!connectUsernameFlag flags || p.username.valid) &&
    (!connectPasswordFlag flags || p.password.valid)

/-- Structural soundness of a packet body for serialization. -/
def Packet.partsWf : Packet → Bool
  | .connect _ fvh props payload =>
      decide (fvh.protocolName.length = 6) && props.wf && payload.wf fvh.flags
  | .connack _ _ props => props.wf
  | .publish _ _ props payload => props.wf && payload.wf
  | .puback _ _ props | .pubrec _ _ props | .pubrel _ _ props
  | .pubcomp _ _ props => props.wf
  | .subscribe _ _ props _ => props.wf
  | .suback _ _ props payload => props.wf && payload.wf
  | .unsubscribe _ _ props _ => props.wf
  | .unsuback _ _ props payload => props.wf && payload.wf
  | .pingreq _ => true
  | .pingresp _ => true
  | .disconnect _ _ props => props.wf
  | .auth _ _ props => props.wf

/-- Validity of an encode-side packet: sound parts and an encodable
remaining length. -/
def Packet.validB (p : Packet) : Bool :=
  p.partsWf && decide (p.bodySize ≤ 268435455)

/-- The assigned VBInt state has the band size, and serializes to that
many bytes. -/
theorem vbint_assign_sizes (o : Nat) (h : o ≤ 268435455) :
    (VBInt.assign o).size = vbintSize o ∧
    (VBInt.assign o).copyInto.length = vbintSize o := by
  by_cases h1 : o ≤ 127
  · rw [vbint_assign_band1 o h1]
    unfold vbintSize
    rw [if_pos h1]
    exact ⟨rfl, rfl⟩
  · by_cases h2 : o ≤ 16383
    · rw [vbint_assign_band2 o (by omega) h2]
      unfold vbintSize
      rw [if_neg (by omega), if_pos h2]
      exact ⟨rfl, rfl⟩
    · by_cases h3 : o ≤ 2097151
      · rw [vbint_assign_band3 o (by omega) h3]
        unfold vbintSize
        rw [if_neg (by omega), if_neg (by omega), if_pos h3]
        exact ⟨rfl, rfl⟩
      · rw [vbint_assign_band4 o (by omega) h]
        unfold vbintSize
        rw [if_neg (by omega), if_neg (by omega), if_neg (by omega)]
        exact ⟨rfl, rfl⟩

/-- Serialized length of a property value equals its size query. -/
theorem propValue_copyInto_length (v : PropValue) (h : v.wf = true) :
    v.copyInto.length = v.getSize := by
  cases v with
  | u8 x => rfl
  | u16 x => rfl
  | u32 x => rfl
  | vb w =>
    simp only [PropValue.wf, decide_eq_true_eq] at h
    simp only [PropValue.copyInto, PropValue.getSize, VBInt.copyInto,
      VBInt.getSize, List.length_take]
    omega
  | str s =>
    simp [PropValue.copyInto, PropValue.getSize, dynString_copyInto_length]
  | bin b =>
    simp [PropValue.copyInto, PropValue.getSize, dynString_copyInto_length]
  | pair q =>
    simp [PropValue.copyInto, PropValue.getSize, dynStringPair_copyInto_length]

/-- Serialized length of a property equals its size query. -/
theorem property_copyInto_length (p : Property) (h : p.value.wf = true) :
    p.copyInto.length = p.getSize := by
  simp [Property.copyInto, Property.getSize, propValue_copyInto_length p.value h]
  omega

/-- Serialized length of a property chain equals the summed sizes. -/
theorem props_bytes_length (l : List Property) (h : ∀ p ∈ l, p.value.wf = true) :
    ((l.map Property.copyInto).flatten).length = (l.map Property.getSize).sum := by
  induction l with
  | nil => rfl
  | cons p rest ih =>
    simp only [List.map_cons, List.flatten_cons, List.length_append,
      List.sum_cons]
    rw [property_copyInto_length p (h p (List.mem_cons_self p rest)),
      ih (fun q hq => h q (List.mem_cons_of_mem p hq))]

/-- Serialized length of a property list equals its size query. -/
theorem properties_copyInto_length (ps : Properties) (h : ps.wf = true) :
    ps.copyInto.length = ps.getSize := by
  simp only [Properties.wf, Bool.and_eq_true, decide_eq_true_eq,
    List.all_eq_true] at h
  obtain ⟨⟨hsum, hsz⟩, hall⟩ := h
  simp only [Properties.copyInto, Properties.getSize, List.length_append,
    VBInt.copyInto, VBInt.getSize, List.length_take]
  rw [props_bytes_length ps.head hall]
  omega

/-- Serialized length of a will message equals its size query. -/
theorem willMessage_copyInto_length (w : WillMessage) (h : w.wf = true) :
    w.copyInto.length = w.getSize := by
  simp only [WillMessage.wf, Bool.and_eq_true] at h
  simp only [WillMessage.copyInto, WillMessage.getSize, List.length_append]
  rw [properties_copyInto_length w.willProperties h.1.1,
    dynString_copyInto_length, dynString_copyInto_length]

/-- Serialized length of a CONNECT payload equals its size query. -/
theorem payloadConnect_copyInto_length (p : PayloadCONNECT) (flags : Nat)
    (h : p.wf flags = true) :
    (p.copyInto flags).length = p.getSize flags := by
  simp only [PayloadCONNECT.wf, Bool.and_eq_true, Bool.or_eq_true,
    Bool.not_eq_true', decide_eq_true_eq] at h
  obtain ⟨⟨⟨hcid, hwm⟩, hun⟩, hpw⟩ := h
  simp only [PayloadCONNECT.copyInto, PayloadCONNECT.getSize, List.length_append]
  have hW : (if connectWillFlag flags then
        (match p.willMessage with | some w => w.copyInto | none => []) else
        []).length =
      (if connectWillFlag flags then
        (match p.willMessage with | some w => w.getSize | none => 0) else 0) := by
    cases hw : connectWillFlag flags
    · simp
    · rcases hwval : p.willMessage with _ | w
      · rcases hwm with hmf | hmt
        · rw [hw] at hmf
          exact absurd hmf (by simp)
        · rw [hwval] at hmt
          exact absurd hmt (by simp)
      · rcases hwm with hmf | hmt
        · rw [hw] at hmf
          exact absurd hmf (by simp)
        · rw [hwval] at hmt
          simp only [if_pos rfl]
          simp [willMessage_copyInto_length w hmt]
  have hU : (if connectUsernameFlag flags then p.username.copyInto else
        []).length =
      (if connectUsernameFlag flags then p.username.getSize else 0) := by
    cases hu : connectUsernameFlag flags
    · simp
    · simp [dynString_copyInto_length]
  have hP : (if connectPasswordFlag flags then p.password.copyInto else
        []).length =
      (if connectPasswordFlag flags then p.password.getSize else 0) := by
    cases hq : connectPasswordFlag flags
    · simp
    · simp [dynString_copyInto_length]
  rw [hW, hU, hP, dynString_copyInto_length]
  omega

/-- Serialized length of a data payload equals its size query. -/
theorem payloadData_copyInto_length (p : PayloadWithData) (h : p.wf = true) :
    p.copyInto.length = p.getSize := by
  simp only [PayloadWithData.wf, decide_eq_true_eq] at h
  simp [PayloadWithData.copyInto, PayloadWithData.getSize, h]

/-- Serialized length of a subscribe topic chain equals its size query. -/
theorem subscribeTopics_copyInto_length (l : List (DynamicString × Nat)) :
    (subscribeTopicsCopyInto l).length = subscribeTopicsGetSize l := by
  induction l with
  | nil => rfl
  | cons t rest ih =>
    simp only [subscribeTopicsCopyInto, subscribeTopicsGetSize,
      List.length_append, List.length_cons, List.length_nil, ih,
      dynString_copyInto_length]

/-- Serialized length of an unsubscribe topic chain equals its size
query. -/
theorem unsubscribeTopics_copyInto_length (l : List DynamicString) :
    (unsubscribeTopicsCopyInto l).length = unsubscribeTopicsGetSize l := by
  induction l with
  | nil => rfl
  | cons t rest ih =>
    simp only [unsubscribeTopicsCopyInto, unsubscribeTopicsGetSize,
      List.length_append, ih, dynString_copyInto_length]

/-- Serialized length of the CONNECT fixed field equals its size query. -/
theorem ffConnect_copyInto_length (f : FixedFieldCONNECT)
    (h : f.protocolName.length = 6) :
    f.copyInto.length = f.getSize := by
  simp [FixedFieldCONNECT.copyInto, FixedFieldCONNECT.getSize, be16, h]

/-- Serialized length of the PUBLISH fixed field equals its size query. -/
theorem ffPublish_copyInto_length (f : FixedFieldPUBLISH) (flags : Nat) :
    (f.copyInto flags).length = f.getSize flags := by
  cases hq : hasPacketID flags <;>
    simp [FixedFieldPUBLISH.copyInto, FixedFieldPUBLISH.getSize, hq, be16,
      dynString_copyInto_length]

/-- Serialized length of the CONNACK fixed field equals its size query. -/
theorem ffConnack_copyInto_length (f : FixedFieldCONNACK) :
    f.copyInto.length = f.getSize := rfl

/-- Serialized length of a packet-identifier fixed field equals its size
query. -/
theorem ffWithID_copyInto_length (f : FixedFieldWithID) :
    f.copyInto.length = f.getSize := rfl

/-- Serialized length of an identifier-and-reason fixed field equals its
size query. -/
theorem ffIDReason_copyInto_length (f : FixedFieldWithIDAndReason) :
    f.copyInto.length = f.getSize := rfl

/-- Serialized length of a reason-only fixed field equals its size
query. -/
theorem ffReason_copyInto_length (f : FixedFieldReason) :
    f.copyInto.length = f.getSize := rfl

/-- Length of a full serialized frame given the body length, together
with the size formula of `computePacketSize`. -/
theorem frame_length_eq (hb o : Nat) (body : List Nat) (hlen : body.length = o)
    (h : o ≤ 268435455) :
    (hb % 256 :: (VBInt.assign o).copyInto ++ body).length =
      o + 1 + (VBInt.assign o).getSize ∧
    o + 1 + (VBInt.assign o).getSize = 1 + vbintSize o + o := by
  have hv := vbint_assign_sizes o h
  simp only [List.length_cons, List.length_append, VBInt.getSize]
  omega

/-- C3: for every packet of each of the fourteen types with a valid
body, the value returned by `computePacketSize` equals the number of
bytes written by the subsequent `copyInto`, and that value is
`1 + vbint_size(remaining_length) + remaining_length`. -/
theorem packet_size_eq_serialize_length (p : Packet) (h : p.validB = true) :
    p.serialize.length = p.computePacketSize ∧
    p.computePacketSize = 1 + vbintSize p.bodySize + p.bodySize := by
  simp only [Packet.validB, Bool.and_eq_true, decide_eq_true_eq] at h
  obtain ⟨hwf, hbound⟩ := h
  cases p with
  | pingreq b => exact ⟨rfl, rfl⟩
  | pingresp b => exact ⟨rfl, rfl⟩
  | connect b fvh props payload =>
    simp only [Packet.partsWf, Bool.and_eq_true, decide_eq_true_eq] at hwf
    obtain ⟨⟨hpn, hps⟩, hpl⟩ := hwf
    have hbody : (Packet.bodyBytes (.connect b fvh props payload)).length =
        Packet.bodySize (.connect b fvh props payload) := by
      simp only [Packet.bodyBytes, Packet.bodySize, List.length_append]
      rw [ffConnect_copyInto_length fvh hpn, properties_copyInto_length props hps,
        payloadConnect_copyInto_length payload fvh.flags hpl]
    exact frame_length_eq b _ _ hbody hbound
  | connack b fvh props =>
    simp only [Packet.partsWf] at hwf
    have hbody : (Packet.bodyBytes (.connack b fvh props)).length =
        Packet.bodySize (.connack b fvh props) := by
      simp only [Packet.bodyBytes, Packet.bodySize, List.length_append]
      rw [ffConnack_copyInto_length fvh, properties_copyInto_length props hwf]
    exact frame_length_eq b _ _ hbody hbound
  | publish b fvh props payload =>
    simp only [Packet.partsWf, Bool.and_eq_true] at hwf
    have hbody : (Packet.bodyBytes (.publish b fvh props payload)).length =
        Packet.bodySize (.publish b fvh props payload) := by
      simp only [Packet.bodyBytes, Packet.bodySize, List.length_append]
      rw [ffPublish_copyInto_length fvh b, properties_copyInto_length props hwf.1,
        payloadData_copyInto_length payload hwf.2]
    exact frame_length_eq b _ _ hbody hbound
  | puback b fvh props =>
    simp only [Packet.partsWf] at hwf
    have hbody : (Packet.bodyBytes (.puback b fvh props)).length =
        Packet.bodySize (.puback b fvh props) := by
      simp only [Packet.bodyBytes, Packet.bodySize, List.length_append]
      rw [ffIDReason_copyInto_length fvh, properties_copyInto_length props hwf]
    exact frame_length_eq b _ _ hbody hbound
  | pubrec b fvh props =>
    simp only [Packet.partsWf] at hwf
    have hbody : (Packet.bodyBytes (.pubrec b fvh props)).length =
        Packet.bodySize (.pubrec b fvh props) := by
      simp only [Packet.bodyBytes, Packet.bodySize, List.length_append]
      rw [ffIDReason_copyInto_length fvh, properties_copyInto_length props hwf]
    exact frame_length_eq b _ _ hbody hbound
  | pubrel b fvh props =>
    simp only [Packet.partsWf] at hwf
    have hbody : (Packet.bodyBytes (.pubrel b fvh props)).length =
        Packet.bodySize (.pubrel b fvh props) := by
      simp only [Packet.bodyBytes, Packet.bodySize, List.length_append]
      rw [ffIDReason_copyInto_length fvh, properties_copyInto_length props hwf]
    exact frame_length_eq b _ _ hbody hbound
  | pubcomp b fvh props =>
    simp only [Packet.partsWf] at hwf
    have hbody : (Packet.bodyBytes (.pubcomp b fvh props)).length =
        Packet.bodySize (.pubcomp b fvh props) := by
      simp only [Packet.bodyBytes, Packet.bodySize, List.length_append]
      rw [ffIDReason_copyInto_length fvh, properties_copyInto_length props hwf]
    exact frame_length_eq b _ _ hbody hbound
  | subscribe b fvh props topics =>
    simp only [Packet.partsWf] at hwf
    have hbody : (Packet.bodyBytes (.subscribe b fvh props topics)).length =
        Packet.bodySize (.subscribe b fvh props topics) := by
      simp only [Packet.bodyBytes, Packet.bodySize, List.length_append]
      rw [ffWithID_copyInto_length fvh, properties_copyInto_length props hwf,
        subscribeTopics_copyInto_length topics]
    exact frame_length_eq b _ _ hbody hbound
  | suback b fvh props payload =>
    simp only [Packet.partsWf, Bool.and_eq_true] at hwf
    have hbody : (Packet.bodyBytes (.suback b fvh props payload)).length =
        Packet.bodySize (.suback b fvh props payload) := by
      simp only [Packet.bodyBytes, Packet.bodySize, List.length_append]
      rw [ffWithID_copyInto_length fvh, properties_copyInto_length props hwf.1,
        payloadData_copyInto_length payload hwf.2]
    exact frame_length_eq b _ _ hbody hbound
  | unsubscribe b fvh props topics =>
    simp only [Packet.partsWf] at hwf
    have hbody : (Packet.bodyBytes (.unsubscribe b fvh props topics)).length =
        Packet.bodySize (.unsubscribe b fvh props topics) := by
      simp only [Packet.bodyBytes, Packet.bodySize, List.length_append]
      rw [ffWithID_copyInto_length fvh, properties_copyInto_length props hwf,
        unsubscribeTopics_copyInto_length topics]
    exact frame_length_eq b _ _ hbody hbound
  | unsuback b fvh props payload =>
    simp only [Packet.partsWf, Bool.and_eq_true] at hwf
    have hbody : (Packet.bodyBytes (.unsuback b fvh props payload)).length =
        Packet.bodySize (.unsuback b fvh props payload) := by
      simp only [Packet.bodyBytes, Packet.bodySize, List.length_append]
      rw [ffWithID_copyInto_length fvh, properties_copyInto_length props hwf.1,
        payloadData_copyInto_length payload hwf.2]
    exact frame_length_eq b _ _ hbody hbound
  | disconnect b fvh props =>
    simp only [Packet.partsWf] at hwf
    have hbody : (Packet.bodyBytes (.disconnect b fvh props)).length =
        Packet.bodySize (.disconnect b fvh props) := by
      simp only [Packet.bodyBytes, Packet.bodySize, List.length_append]
      rw [ffReason_copyInto_length fvh, properties_copyInto_length props hwf]
    exact frame_length_eq b _ _ hbody hbound
  | auth b fvh props =>
    simp only [Packet.partsWf] at hwf
    have hbody : (Packet.bodyBytes (.auth b fvh props)).length =
        Packet.bodySize (.auth b fvh props) := by
      simp only [Packet.bodyBytes, Packet.bodySize, List.length_append]
      rw [ffReason_copyInto_length fvh, properties_copyInto_length props hwf]
    exact frame_length_eq b _ _ hbody hbound

/-- Witness for `packet_size_eq_serialize_length` at a concrete PUBACK
packet with identifier `0x1234` and an empty property list. -/
theorem packet_size_eq_serialize_length_witness :
    (Packet.puback 0x40 ⟨0x1234, 0⟩ ⟨VBInt.assign 0, []⟩).serialize.length =
      (Packet.puback 0x40 ⟨0x1234, 0⟩ ⟨VBInt.assign 0, []⟩).computePacketSize ∧
    (Packet.puback 0x40 ⟨0x1234, 0⟩ ⟨VBInt.assign 0, []⟩).computePacketSize =
      1 + vbintSize (Packet.puback 0x40 ⟨0x1234, 0⟩ ⟨VBInt.assign 0, []⟩).bodySize +
        (Packet.puback 0x40 ⟨0x1234, 0⟩ ⟨VBInt.assign 0, []⟩).bodySize :=
  packet_size_eq_serialize_length (Packet.puback 0x40 ⟨0x1234, 0⟩ ⟨VBInt.assign 0, []⟩)
    (by decide)

/-- The minimal CONNECT packet of the claim: clean-start set (flags
byte 2), no will, no username, no password, client identifier "a"
(byte 0x61), keep-alive 30, empty property list.  The header byte is
`(CONNECT << 4) | 0` and the fixed field holds the protocol name
`00 04 'M' 'Q' 'T' 'T'` and version 5 set by the constructor. -/
def connectMinimal : Packet :=
  .connect 0x10 ⟨[0x00, 0x04, 0x4D, 0x51, 0x54, 0x54], 5, 0x02, 30⟩
    ⟨VBInt.assign 0, []⟩ ⟨⟨[0x61]⟩, none, ⟨[]⟩, ⟨[]⟩⟩

/-- C8 counterexample: the minimal CONNECT packet does NOT serialize to
the claim's bytes `10 0D ...` — the remaining length of this body is 14
(10 fixed-field bytes, 1 empty property list, 3 client-identifier
bytes), not the 13 the claim states, so the second byte is `0x0E`. -/
theorem connect_minimal_bytes_counterexample :
    connectMinimal.serialize ≠
      [0x10, 0x0D, 0x00, 0x04, 0x4D, 0x51, 0x54, 0x54, 0x05, 0x02, 0x00, 0x1E,
        0x00, 0x00, 0x01, 0x61] := by decide

/-- C8 amended: the minimal CONNECT packet serializes to exactly
`10 0E 00 04 4D 51 54 54 05 02 00 1E 00 00 01 61`, with remaining
length 14. -/
theorem connect_minimal_bytes :
    connectMinimal.serialize =
      [0x10, 0x0E, 0x00, 0x04, 0x4D, 0x51, 0x54, 0x54, 0x05, 0x02, 0x00, 0x1E,
        0x00, 0x00, 0x01, 0x61] ∧
    connectMinimal.bodySize = 14 := by decide

/-!
Property deserialization (`PropertyRegistry::unserialize` and
`Properties::readFrom`).  The registry's creator table maps each of the
27 legal tags to the value shape fixed by the `TypedProperty` typedefs;
unknown tags have no creator and fail as `BadData`.
-/

/-- The seven value shapes a property decoder can be registered with. -/
inductive PropShape where
  | u8k | u16k | u32k | vbk | strk | bink | pairk
deriving DecidableEq, Repr

/-- Tag-to-shape mapping of the registered properties (the
`TypedProperty` typedef list); `none` means no registered creator. -/
def propShape (t : Nat) : Option PropShape :=
  match t with
  | 1 => some .u8k
  | 2 => some .u32k
  | 3 => some .strk
  | 8 => some .strk
  | 9 => some .bink
  | 11 => some .vbk
  | 17 => some .u32k
  | 18 => some .strk
  | 19 => some .u16k
  | 21 => some .strk
  | 22 => some .bink
  | 23 => some .u8k
  | 24 => some .u32k
  | 25 => some .u8k
  | 26 => some .strk
  | 28 => some .strk
  | 31 => some .strk
  | 33 => some .u16k
  | 34 => some .u16k
  | 35 => some .u16k
  | 36 => some .u8k
  | 37 => some .u8k
  | 38 => some .pairk
  | 39 => some .u32k
  | 40 => some .u8k
  | 41 => some .u8k
  | 42 => some .u8k
  | _ => none

/-- Mirror of `PropertyRegistry::unserialize` composed with the
instantiated property's `readFrom`: read the tag byte, reject tags at or
above `MaxUsedPropertyType` (43) or without a registered creator, then
decode the value by its shape (PODs big-endian, strings and pairs
length-prefixed, `SubscriptionID` as a VBInt).  The dummy property
returned along an error code is never observed. -/
def propertyUnserialize (buffer : List Nat) : Property × Nat :=
  if buffer.length < 1 then (⟨0, .u8 0⟩, NotEnoughData)
  else
    let t := buffer.headD 0
    if 43 ≤ t then (⟨0, .u8 0⟩, BadData)
    else
      match propShape t with
      | none => (⟨0, .u8 0⟩, BadData)
      | some .u8k =>
        if buffer.length < 2 then (⟨0, .u8 0⟩, NotEnoughData)
        else (⟨t, .u8 (buffer.getD 1 0)⟩, 2)
      | some .u16k =>
        if buffer.length < 3 then (⟨0, .u8 0⟩, NotEnoughData)
        else (⟨t, .u16 (buffer.getD 1 0 * 256 + buffer.getD 2 0)⟩, 3)
      | some .u32k =>
        if buffer.length < 5 then (⟨0, .u8 0⟩, NotEnoughData)
        else (⟨t, .u32 (buffer.getD 1 0 * 16777216 + buffer.getD 2 0 * 65536 +
          buffer.getD 3 0 * 256 + buffer.getD 4 0)⟩, 5)
      | some .vbk =>
        if buffer.length < 2 then (⟨0, .u8 0⟩, NotEnoughData)
        else
          let r := VBInt.readFrom buffer.tail
          if isError r.2 then (⟨0, .u8 0⟩, r.2) else (⟨t, .vb r.1⟩, r.2 + 1)
      | some .strk =>
        if buffer.length < 3 then (⟨0, .u8 0⟩, NotEnoughData)
        else
          let r := DynamicString.readFrom buffer.tail
          if isError r.2 then (⟨0, .u8 0⟩, r.2) else (⟨t, .str r.1⟩, r.2 + 1)
      | some .bink =>
        if buffer.length < 3 then (⟨0, .u8 0⟩, NotEnoughData)
        else
          let r := DynamicString.readFrom buffer.tail
          if isError r.2 then (⟨0, .u8 0⟩, r.2) else (⟨t, .bin r.1⟩, r.2 + 1)
      | some .pairk =>
        if buffer.length < 5 then (⟨0, .u8 0⟩, NotEnoughData)
        else
          let r := DynamicStringPair.readFrom buffer.tail
          if isError r.2 then (⟨0, .u8 0⟩, r.2) else (⟨t, .pair r.1⟩, r.2 + 1)

/-- Mirror of the `while (cumSize)` decode loop of
`Properties::readFrom`: repeatedly unserialize properties from the
still-remaining `cumSize` bytes (the length passed to `unserialize` is
`cumSize`, not the true buffer length).  The fuel argument only
formalizes termination; a successful `unserialize` always consumes at
least two bytes, so with fuel at least `cumSize` the fuel branch is
unreachable. -/
def propsLoopRead (fuel : Nat) (buffer : List Nat) (cum : Nat) :
    List Property × Nat :=
  match fuel, cum with
  | _, 0 => ([], 0)
  | 0, _ + 1 => ([], BadData)
  | f + 1, c + 1 =>
    let r := propertyUnserialize (buffer.take (c + 1))
    if isError r.2 then ([], r.2)
    else
      let rest := propsLoopRead f (buffer.drop r.2) (c + 1 - r.2)
      if isError rest.2 then ([], rest.2)
      else (r.1 :: rest.1, r.2 + rest.2)

/-- Mirror of `Properties::readFrom`: read the length VBInt, check the
declared length against the available bytes, then run the decode loop
until exactly `length` bytes are consumed. -/
def Properties.readFrom (buffer : List Nat) : Properties × Nat :=
  let rl := VBInt.readFrom buffer
  if isError rl.2 then (⟨rl.1, []⟩, rl.2)
  else if rl.1.toUInt32 > buffer.length - rl.1.getSize then
    (⟨rl.1, []⟩, NotEnoughData)
  else
    let r := propsLoopRead rl.1.toUInt32 (buffer.drop rl.2) rl.1.toUInt32
    if isError r.2 then (⟨rl.1, r.1⟩, r.2)
    else (⟨rl.1, r.1⟩, rl.2 + r.2)


/-- The `NotEnoughData` code tests as an error. -/
theorem isError_NotEnoughData : isError NotEnoughData = true := rfl

/-- The `BadData` code tests as an error. -/
theorem isError_BadData : isError BadData = true := rfl

/-- The `Shortcut` code tests as an error. -/
theorem isError_Shortcut : isError Shortcut = true := rfl

/-- A value below the error band does not test as an error. -/
theorem isError_eq_false {v : Nat} (h : v < 0xFFFFFFFD) : isError v = false := by
  simp only [isError, MinErrorCode, decide_eq_false_iff_not]
  omega

/-- A successful VBInt read returns its stored size as the code, and
consumes no more than the buffer holds. -/
theorem vbint_readFrom_success (buffer : List Nat) :
    isError (VBInt.readFrom buffer).2 = true ∨
    ((VBInt.readFrom buffer).2 = (VBInt.readFrom buffer).1.size ∧
      (VBInt.readFrom buffer).2 ≤ buffer.length ∧
      1 ≤ (VBInt.readFrom buffer).2) := by
  rcases buffer with _ | ⟨b0, t0⟩
  · exact .inl rfl
  · by_cases h0 : b0 < 0x80
    · have e : VBInt.readFrom (b0 :: t0) = (⟨[b0], 1⟩, 1) := by
        simp only [VBInt.readFrom]
        rw [if_pos h0]
      rw [e]
      right
      exact ⟨rfl, by simp, by omega⟩
    · rcases t0 with _ | ⟨b1, t1⟩
      · have e : VBInt.readFrom [b0] = (⟨[b0], 1⟩, NotEnoughData) := by
          simp only [VBInt.readFrom]
          rw [if_neg h0]
        rw [e]
        exact .inl isError_NotEnoughData
      · by_cases h1 : b1 < 0x80
        · have e : VBInt.readFrom (b0 :: b1 :: t1) = (⟨[b0, b1], 2⟩, 2) := by
            simp only [VBInt.readFrom]
            rw [if_neg h0, if_pos h1]
          rw [e]
          right
          refine ⟨rfl, by simp, by omega⟩
        · rcases t1 with _ | ⟨b2, t2⟩
          · have e : VBInt.readFrom [b0, b1] = (⟨[b0, b1], 2⟩, NotEnoughData) := by
              simp only [VBInt.readFrom]
              rw [if_neg h0, if_neg h1]
            rw [e]
            exact .inl isError_NotEnoughData
          · by_cases h2 : b2 < 0x80
            · have e : VBInt.readFrom (b0 :: b1 :: b2 :: t2) =
                  (⟨[b0, b1, b2], 3⟩, 3) := by
                simp only [VBInt.readFrom]
                rw [if_neg h0, if_neg h1, if_pos h2]
              rw [e]
              right
              refine ⟨rfl, by simp, by omega⟩
            · rcases t2 with _ | ⟨b3, t3⟩
              · have e : VBInt.readFrom [b0, b1, b2] =
                    (⟨[b0, b1, b2], 3⟩, NotEnoughData) := by
                  simp only [VBInt.readFrom]
                  rw [if_neg h0, if_neg h1, if_neg h2]
                rw [e]
                exact .inl isError_NotEnoughData
              · have e : VBInt.readFrom (b0 :: b1 :: b2 :: b3 :: t3) =
                    (⟨[b0, b1, b2, b3], 4⟩, BadData) := by
                  simp only [VBInt.readFrom]
                  rw [if_neg h0, if_neg h1, if_neg h2]
                rw [e]
                exact .inl isError_BadData

/-- A successful string read consumes at least 2 bytes and no more than
the buffer holds. -/
theorem dynString_readFrom_success (buffer : List Nat) :
    isError (DynamicString.readFrom buffer).2 = true ∨
    ((DynamicString.readFrom buffer).2 ≤ buffer.length ∧
      2 ≤ (DynamicString.readFrom buffer).2) := by
  by_cases h2 : buffer.length < 2
  · have e : DynamicString.readFrom buffer = (⟨[]⟩, NotEnoughData) := by
      unfold DynamicString.readFrom
      rw [if_pos h2]
    rw [e]
    exact .inl isError_NotEnoughData
  · by_cases h3 : buffer.getD 0 0 * 256 + buffer.getD 1 0 + 2 > buffer.length
    · have e : DynamicString.readFrom buffer = (⟨[]⟩, NotEnoughData) := by
        unfold DynamicString.readFrom
        rw [if_neg h2, if_pos h3]
      rw [e]
      exact .inl isError_NotEnoughData
    · have e : DynamicString.readFrom buffer =
          (⟨(buffer.drop 2).take (buffer.getD 0 0 * 256 + buffer.getD 1 0)⟩,
            buffer.getD 0 0 * 256 + buffer.getD 1 0 + 2) := by
        unfold DynamicString.readFrom
        rw [if_neg h2, if_neg h3]
      rw [e]
      right
      exact ⟨by omega, by omega⟩

/-- A successful pair read consumes no more than the buffer holds. -/
theorem dynStringPair_readFrom_success (buffer : List Nat) :
    isError (DynamicStringPair.readFrom buffer).2 = true ∨
    ((DynamicStringPair.readFrom buffer).2 ≤ buffer.length ∧
      2 ≤ (DynamicStringPair.readFrom buffer).2) := by
  unfold DynamicStringPair.readFrom
  by_cases he : isError (DynamicString.readFrom buffer).2 = true
  · left
    rw [if_pos he]
    exact he
  · rcases dynString_readFrom_success buffer with hv | hv
    · exact absurd hv he
    · rw [if_neg he]
      by_cases he2 : isError
          (DynamicString.readFrom (buffer.drop (DynamicString.readFrom buffer).2)).2 =
            true
      · left
        rw [if_pos he2]
        exact he2
      · rcases dynString_readFrom_success
            (buffer.drop (DynamicString.readFrom buffer).2) with hv2 | hv2
        · exact absurd hv2 he2
        · right
          rw [if_neg he2]
          have hd := List.length_drop (DynamicString.readFrom buffer).2 buffer
          simp only []
          exact ⟨by omega, by omega⟩

/-- A successful property unserialization consumes at least two bytes
and no more than the buffer holds. -/
theorem propertyUnserialize_success (buffer : List Nat) :
    isError (propertyUnserialize buffer).2 = true ∨
    ((propertyUnserialize buffer).2 ≤ buffer.length ∧
      2 ≤ (propertyUnserialize buffer).2) := by
  by_cases h1 : buffer.length < 1
  · left
    simp only [propertyUnserialize]
    rw [if_pos h1]
    exact isError_NotEnoughData
  · by_cases h43 : 43 ≤ buffer.headD 0
    · left
      simp only [propertyUnserialize]
      rw [if_neg h1, if_pos h43]
      exact isError_BadData
    · rcases hps : propShape (buffer.headD 0) with _ | shape
      · left
        simp only [propertyUnserialize]
        rw [if_neg h1, if_neg h43, hps]
        exact isError_BadData
      · cases shape with
        | u8k =>
          by_cases hl : buffer.length < 2
          · left
            simp only [propertyUnserialize]
            rw [if_neg h1, if_neg h43, hps]
            simp only []
            rw [if_pos hl]
            exact isError_NotEnoughData
          · right
            simp only [propertyUnserialize]
            rw [if_neg h1, if_neg h43, hps]
            simp only []
            rw [if_neg hl]
            exact ⟨by omega, by omega⟩
        | u16k =>
          by_cases hl : buffer.length < 3
          · left
            simp only [propertyUnserialize]
            rw [if_neg h1, if_neg h43, hps]
            simp only []
            rw [if_pos hl]
            exact isError_NotEnoughData
          · right
            simp only [propertyUnserialize]
            rw [if_neg h1, if_neg h43, hps]
            simp only []
            rw [if_neg hl]
            exact ⟨by omega, by omega⟩
        | u32k =>
          by_cases hl : buffer.length < 5
          · left
            simp only [propertyUnserialize]
            rw [if_neg h1, if_neg h43, hps]
            simp only []
            rw [if_pos hl]
            exact isError_NotEnoughData
          · right
            simp only [propertyUnserialize]
            rw [if_neg h1, if_neg h43, hps]
            simp only []
            rw [if_neg hl]
            exact ⟨by omega, by omega⟩
        | vbk =>
          by_cases hl : buffer.length < 2
          · left
            simp only [propertyUnserialize]
            rw [if_neg h1, if_neg h43, hps]
            simp only []
            rw [if_pos hl]
            exact isError_NotEnoughData
          · by_cases he : isError (VBInt.readFrom buffer.tail).2 = true
            · left
              simp only [propertyUnserialize]
              rw [if_neg h1, if_neg h43, hps]
              simp only []
              rw [if_neg hl, if_pos he]
              exact he
            · rcases vbint_readFrom_success buffer.tail with hv | hv
              · exact absurd hv he
              · right
                simp only [propertyUnserialize]
                rw [if_neg h1, if_neg h43, hps]
                simp only []
                rw [if_neg hl, if_neg he]
                have ht := List.length_tail buffer
                exact ⟨by simp only []; omega, by omega⟩
        | strk =>
          by_cases hl : buffer.length < 3
          · left
            simp only [propertyUnserialize]
            rw [if_neg h1, if_neg h43, hps]
            simp only []
            rw [if_pos hl]
            exact isError_NotEnoughData
          · by_cases he : isError (DynamicString.readFrom buffer.tail).2 = true
            · left
              simp only [propertyUnserialize]
              rw [if_neg h1, if_neg h43, hps]
              simp only []
              rw [if_neg hl, if_pos he]
              exact he
            · rcases dynString_readFrom_success buffer.tail with hv | hv
              · exact absurd hv he
              · right
                simp only [propertyUnserialize]
                rw [if_neg h1, if_neg h43, hps]
                simp only []
                rw [if_neg hl, if_neg he]
                have ht := List.length_tail buffer
                exact ⟨by simp only []; omega, by omega⟩
        | bink =>
          by_cases hl : buffer.length < 3
          · left
            simp only [propertyUnserialize]
            rw [if_neg h1, if_neg h43, hps]
            simp only []
            rw [if_pos hl]
            exact isError_NotEnoughData
          · by_cases he : isError (DynamicString.readFrom buffer.tail).2 = true
            · left
              simp only [propertyUnserialize]
              rw [if_neg h1, if_neg h43, hps]
              simp only []
              rw [if_neg hl, if_pos he]
              exact he
            · rcases dynString_readFrom_success buffer.tail with hv | hv
              · exact absurd hv he
              · right
                simp only [propertyUnserialize]
                rw [if_neg h1, if_neg h43, hps]
                simp only []
                rw [if_neg hl, if_neg he]
                have ht := List.length_tail buffer
                exact ⟨by simp only []; omega, by omega⟩
        | pairk =>
          by_cases hl : buffer.length < 5
          · left
            simp only [propertyUnserialize]
            rw [if_neg h1, if_neg h43, hps]
            simp only []
            rw [if_pos hl]
            exact isError_NotEnoughData
          · by_cases he : isError (DynamicStringPair.readFrom buffer.tail).2 = true
            · left
              simp only [propertyUnserialize]
              rw [if_neg h1, if_neg h43, hps]
              simp only []
              rw [if_neg hl, if_pos he]
              exact he
            · rcases dynStringPair_readFrom_success buffer.tail with hv | hv
              · exact absurd hv he
              · right
                simp only [propertyUnserialize]
                rw [if_neg h1, if_neg h43, hps]
                simp only []
                rw [if_neg hl, if_neg he]
                have ht := List.length_tail buffer
                exact ⟨by simp only []; omega, by omega⟩

/-- The property decode loop, when it succeeds, consumes exactly the
declared byte count. -/
theorem propsLoopRead_consumed (fuel : Nat) :
    ∀ (buffer : List Nat) (cum : Nat),
      isError (propsLoopRead fuel buffer cum).2 = false →
      (propsLoopRead fuel buffer cum).2 = cum := by
  induction fuel with
  | zero =>
    intro buffer cum h
    cases cum with
    | zero => rfl
    | succ c =>
      rw [show propsLoopRead 0 buffer (c + 1) = ([], BadData) from rfl] at h
      rw [isError_BadData] at h
      exact absurd h (by simp)
  | succ f ih =>
    intro buffer cum h
    cases cum with
    | zero => rfl
    | succ c =>
      by_cases he : isError (propertyUnserialize (buffer.take (c + 1))).2 = true
      · have e : propsLoopRead (f + 1) buffer (c + 1) =
            ([], (propertyUnserialize (buffer.take (c + 1))).2) := by
          simp only [propsLoopRead]
          rw [if_pos he]
        rw [e] at h
        simp only [he] at h
        exact absurd h (by simp)
      · by_cases he2 : isError (propsLoopRead f
            (buffer.drop (propertyUnserialize (buffer.take (c + 1))).2)
            (c + 1 - (propertyUnserialize (buffer.take (c + 1))).2)).2 = true
        · have e : propsLoopRead (f + 1) buffer (c + 1) =
              ([], (propsLoopRead f
                (buffer.drop (propertyUnserialize (buffer.take (c + 1))).2)
                (c + 1 - (propertyUnserialize (buffer.take (c + 1))).2)).2) := by
            simp only [propsLoopRead]
            rw [if_neg he, if_pos he2]
          rw [e] at h
          simp only [he2] at h
          exact absurd h (by simp)
        · have e : propsLoopRead (f + 1) buffer (c + 1) =
              ((propertyUnserialize (buffer.take (c + 1))).1 ::
                  (propsLoopRead f
                    (buffer.drop (propertyUnserialize (buffer.take (c + 1))).2)
                    (c + 1 - (propertyUnserialize (buffer.take (c + 1))).2)).1,
                (propertyUnserialize (buffer.take (c + 1))).2 +
                  (propsLoopRead f
                    (buffer.drop (propertyUnserialize (buffer.take (c + 1))).2)
                    (c + 1 - (propertyUnserialize (buffer.take (c + 1))).2)).2) := by
            simp only [propsLoopRead]
            rw [if_neg he, if_neg he2]
          rw [e]
          have hrest := ih _ _ (by simpa using he2)
          rcases propertyUnserialize_success (buffer.take (c + 1)) with hu | hu
          · exact absurd hu he
          · have htake : (buffer.take (c + 1)).length ≤ c + 1 := by
              rw [List.length_take]
              omega
            simp only []
            omega

/-- A successful property-list read consumes exactly `getSize` of the
parsed list (the length prefix plus the declared length). -/
theorem properties_readFrom_consumed (buffer : List Nat)
    (h : isError (Properties.readFrom buffer).2 = false) :
    (Properties.readFrom buffer).2 = (Properties.readFrom buffer).1.getSize := by
  by_cases h1 : isError (VBInt.readFrom buffer).2 = true
  · have e : Properties.readFrom buffer =
        (⟨(VBInt.readFrom buffer).1, []⟩, (VBInt.readFrom buffer).2) := by
      simp only [Properties.readFrom]
      rw [if_pos h1]
    rw [e] at h
    simp only [h1] at h
    exact absurd h (by simp)
  · by_cases h2 : (VBInt.readFrom buffer).1.toUInt32 >
        buffer.length - (VBInt.readFrom buffer).1.getSize
    · have e : Properties.readFrom buffer =
          (⟨(VBInt.readFrom buffer).1, []⟩, NotEnoughData) := by
        simp only [Properties.readFrom]
        rw [if_neg h1, if_pos h2]
      rw [e] at h
      rw [show ((⟨(VBInt.readFrom buffer).1, []⟩, NotEnoughData) :
        Properties × Nat).2 = NotEnoughData from rfl, isError_NotEnoughData] at h
      exact absurd h (by simp)
    · by_cases h3 : isError (propsLoopRead (VBInt.readFrom buffer).1.toUInt32
          (buffer.drop (VBInt.readFrom buffer).2)
          (VBInt.readFrom buffer).1.toUInt32).2 = true
      · have e : Properties.readFrom buffer =
            (⟨(VBInt.readFrom buffer).1,
                (propsLoopRead (VBInt.readFrom buffer).1.toUInt32
                  (buffer.drop (VBInt.readFrom buffer).2)
                  (VBInt.readFrom buffer).1.toUInt32).1⟩,
              (propsLoopRead (VBInt.readFrom buffer).1.toUInt32
                (buffer.drop (VBInt.readFrom buffer).2)
                (VBInt.readFrom buffer).1.toUInt32).2) := by
          simp only [Properties.readFrom]
          rw [if_neg h1, if_neg h2, if_pos h3]
        rw [e] at h
        simp only [h3] at h
        exact absurd h (by simp)
      · have e : Properties.readFrom buffer =
            (⟨(VBInt.readFrom buffer).1,
                (propsLoopRead (VBInt.readFrom buffer).1.toUInt32
                  (buffer.drop (VBInt.readFrom buffer).2)
                  (VBInt.readFrom buffer).1.toUInt32).1⟩,
              (VBInt.readFrom buffer).2 +
                (propsLoopRead (VBInt.readFrom buffer).1.toUInt32
                  (buffer.drop (VBInt.readFrom buffer).2)
                  (VBInt.readFrom buffer).1.toUInt32).2) := by
          simp only [Properties.readFrom]
          rw [if_neg h1, if_neg h2, if_neg h3]
        rw [e]
        have hloop := propsLoopRead_consumed _ _ _ (by simpa using h3)
        rcases vbint_readFrom_success buffer with hv | hv
        · exact absurd hv h1
        · simp only [Properties.getSize, VBInt.getSize]
          omega

/-!
Generic packet parsing (`ControlPacket<type>::readFrom`).  The C++
template is generic over the fixed-variable-header, property and payload
components; the model mirrors that with function parameters.  The packet
state is the tuple (header byte, remaining-length VBInt, fixed variable
header, properties, payload); the reader receives the packet's current
state (the source mutates in place) and returns the new state with the
return code.  `fvhRead` receives the header byte (the flags pointer
`setFlags` wired in at construction) and the remaining length
(`setRemainingLength`); `payloadRead` receives the expected payload size
`computePacketSize(false)`, computed with the `uint32` wrap-around of
the source's unsigned subtraction.
-/

/-- Body of the generic `readFrom` after the header byte has been
stored: parse the remaining length, check the frame is complete, run the
fixed variable header (honoring the `Shortcut` early stop), the
properties, and the payload. -/
def controlPacketReadBody {F P L : Type}
    (fvhRead : F → Nat → Nat → List Nat → F × Nat)
    (fvhSize : F → Nat)
    (propsRead : List Nat → P × Nat)
    (propsSize : P → Nat)
    (payloadRead : L → Nat → List Nat → L × Nat)
    (f0 : F) (p0 : P) (l0 : L) (hdr : Nat) (buf1 : List Nat) :
    (Nat × VBInt × F × P × L) × Nat :=
  let rl := VBInt.readFrom buf1
  if isError rl.2 then ((hdr, rl.1, f0, p0, l0), rl.2)
  else
    let o := 1 + rl.2
    let buf2 := buf1.drop rl.2
    let expLength := rl.1.toUInt32
    if buf2.length < expLength then ((hdr, rl.1, f0, p0, l0), NotEnoughData)
    else
      let fr := fvhRead f0 hdr expLength buf2
      if isError fr.2 then
        ((hdr, rl.1, fr.1, p0, l0),
          if isShortcut fr.2 then o + expLength else fr.2)
      else
        let buf3 := buf2.drop fr.2
        let pr := propsRead buf3
        if isError pr.2 then ((hdr, rl.1, fr.1, pr.1, l0), pr.2)
        else
          let buf4 := buf3.drop pr.2
          let expSize :=
            (((expLength : Int) - fvhSize fr.1 - propsSize pr.1).emod (2 ^ 32)).toNat
          let lr := payloadRead l0 expSize buf4
          if isError lr.2 then ((hdr, rl.1, fr.1, pr.1, lr.1), lr.2)
          else ((hdr, rl.1, fr.1, pr.1, lr.1), o + fr.2 + pr.2 + lr.2)

/-- Mirror of the generic `ControlPacket<type>::readFrom`: require two
bytes, store the first byte into `header.typeAndFlags` unquestioned,
then parse the rest. -/
def controlPacketReadFrom {F P L : Type}
    (fvhRead : F → Nat → Nat → List Nat → F × Nat)
    (fvhSize : F → Nat)
    (propsRead : List Nat → P × Nat)
    (propsSize : P → Nat)
    (payloadRead : L → Nat → List Nat → L × Nat)
    (init : Nat × VBInt × F × P × L) (buffer : List Nat) :
    (Nat × VBInt × F × P × L) × Nat :=
  if buffer.length < 2 then (init, NotEnoughData)
  else
    controlPacketReadBody fvhRead fvhSize propsRead propsSize payloadRead
      init.2.2.1 init.2.2.2.1 init.2.2.2.2 (buffer.headD 0) buffer.tail

/-- An empty property list in its default-constructed state. -/
def emptyProperties : Properties := ⟨VBInt.assign 0, []⟩

/-- Payload reader of the packets without a payload
(`EmptySerializable::readFrom` returns 0 consumed). -/
def emptyPayloadRead : Unit → Nat → List Nat → Unit × Nat := fun l _ _ => (l, 0)

/-- Instantiation of the generic reader for `ControlPacket<PUBACK>`
(same shape for PUBREC, PUBREL, PUBCOMP): identifier-and-reason fixed
field, heap properties, no payload. -/
def pubackPacketReadFrom
    (init : Nat × VBInt × FixedFieldWithIDAndReason × Properties × Unit)
    (buffer : List Nat) :
    (Nat × VBInt × FixedFieldWithIDAndReason × Properties × Unit) × Nat :=
  controlPacketReadFrom (fun f _ rem buf => f.readFrom rem buf)
    FixedFieldWithIDAndReason.getSize Properties.readFrom Properties.getSize
    emptyPayloadRead init buffer

/-- Default-constructed `ControlPacket<PUBACK>`: header byte
`(PUBACK << 4) | 0`, zero remaining length, identifier 0 and reason
`Success`, empty properties. -/
def pubackDefault : Nat × VBInt × FixedFieldWithIDAndReason × Properties × Unit :=
  (0x40, VBInt.assign 0, ⟨0, 0⟩, emptyProperties, ())

/-- Instantiation of the generic reader for `ControlPacket<DISCONNECT>`. -/
def disconnectPacketReadFrom
    (init : Nat × VBInt × FixedFieldReason × Properties × Unit)
    (buffer : List Nat) :
    (Nat × VBInt × FixedFieldReason × Properties × Unit) × Nat :=
  controlPacketReadFrom (fun f _ rem buf => f.readFromDisconnect rem buf)
    FixedFieldReason.getSize Properties.readFrom Properties.getSize
    emptyPayloadRead init buffer

/-- Default-constructed `ControlPacket<DISCONNECT>`. -/
def disconnectDefault : Nat × VBInt × FixedFieldReason × Properties × Unit :=
  (0xE0, VBInt.assign 0, ⟨0⟩, emptyProperties, ())

/-- Instantiation of the generic reader for `ControlPacket<AUTH>`. -/
def authPacketReadFrom
    (init : Nat × VBInt × FixedFieldReason × Properties × Unit)
    (buffer : List Nat) :
    (Nat × VBInt × FixedFieldReason × Properties × Unit) × Nat :=
  controlPacketReadFrom (fun f _ rem buf => f.readFromAuth rem buf)
    FixedFieldReason.getSize Properties.readFrom Properties.getSize
    emptyPayloadRead init buffer

/-- Default-constructed `ControlPacket<AUTH>`. -/
def authDefault : Nat × VBInt × FixedFieldReason × Properties × Unit :=
  (0xF0, VBInt.assign 0, ⟨0⟩, emptyProperties, ())

/-- Mirror of the recursive `SubscribeTopic::readFrom`: a topic string,
then the mandatory options byte, then — whenever bytes remain — the next
entry.  The fuel argument only formalizes termination (each entry takes
at least three bytes); with fuel above the buffer length the zero-fuel
branch is unreachable. -/
def subscribeTopicsReadLoop (fuel : Nat) (buffer : List Nat) :
    List (DynamicString × Nat) × Nat :=
  match fuel with
  | 0 => ([], BadData)
  | f + 1 =>
    let rt := DynamicString.readFrom buffer
    if isError rt.2 then ([], rt.2)
    else
      let rest := buffer.drop rt.2
      if rest.length = 0 then ([], NotEnoughData)
      else
        let opt := rest.headD 0
        let rest2 := rest.tail
        if rest2.length ≠ 0 then
          let rr := subscribeTopicsReadLoop f rest2
          if isError rr.2 then ([], rr.2)
          else ((rt.1, opt) :: rr.1, rt.2 + 1 + rr.2)
        else ([(rt.1, opt)], rt.2 + 1)

/-- Mirror of `Payload<SUBSCRIBE>::readFrom`: check the expected size is
available, then parse topics from exactly `expSize` bytes (that is the
`bufLength` handed to `SubscribeTopic::readFrom`). -/
def subscribePayloadReadFrom (topics0 : List (DynamicString × Nat))
    (expSize : Nat) (buffer : List Nat) : List (DynamicString × Nat) × Nat :=
  if buffer.length < expSize then (topics0, NotEnoughData)
  else subscribeTopicsReadLoop (expSize + 1) (buffer.take expSize)

/-- Instantiation of the generic reader for `ControlPacket<SUBSCRIBE>`:
packet-identifier fixed field, heap properties, topic-list payload. -/
def subscribePacketReadFrom
    (init : Nat × VBInt × FixedFieldWithID × Properties ×
      List (DynamicString × Nat))
    (buffer : List Nat) :
    (Nat × VBInt × FixedFieldWithID × Properties ×
      List (DynamicString × Nat)) × Nat :=
  controlPacketReadFrom (fun f _ rem buf => f.readFrom rem buf)
    FixedFieldWithID.getSize Properties.readFrom Properties.getSize
    subscribePayloadReadFrom init buffer

/-- Default-constructed `ControlPacket<SUBSCRIBE>`: header byte
`(SUBSCRIBE << 4) | 2`, no topics. -/
def subscribeDefault :
    Nat × VBInt × FixedFieldWithID × Properties × List (DynamicString × Nat) :=
  (0x82, VBInt.assign 0, ⟨0⟩, emptyProperties, [])

/-- C5: evaluation of the DISCONNECT and AUTH parsers at the claim's
inputs.  A frame with remaining length 0 succeeds with reason `Success`
(0) and the default empty property list, as claimed.  But for a frame
with a reason byte present the parsed reason is NOT the first byte of
the frame body: `FixedField::readFrom` reads `buffer[1]` although the
caller already advanced the buffer past the fixed header, so the frames
`E0 02 04 00` and `F0 02 04 00` (body bytes: reason `0x04`, empty
property list `0x00`) parse with reason code 0 — the SECOND body byte —
instead of `0x04`. -/
theorem disconnect_auth_reason_byte :
    disconnectPacketReadFrom disconnectDefault [0xE0, 0x00] =
      ((0xE0, ⟨[0], 1⟩, ⟨0⟩, emptyProperties, ()), 2) ∧
    disconnectPacketReadFrom disconnectDefault [0xE0, 0x02, 0x04, 0x00] =
      ((0xE0, ⟨[2], 1⟩, ⟨0x00⟩, ⟨⟨[0], 1⟩, []⟩, ()), 4) ∧
    authPacketReadFrom authDefault [0xF0, 0x00] =
      ((0xF0, ⟨[0], 1⟩, ⟨0⟩, emptyProperties, ()), 2) ∧
    authPacketReadFrom authDefault [0xF0, 0x02, 0x04, 0x00] =
      ((0xF0, ⟨[2], 1⟩, ⟨0x00⟩, ⟨⟨[0], 1⟩, []⟩, ()), 4) := by
  refine ⟨rfl, rfl, rfl, rfl⟩

/-- C9 counterexample: the complete SUBSCRIBE frame `82 03 00 01 00`
(remaining length 3 = packet identifier `0x0001` plus the empty property
list, zero subscription entries) parses to `NotEnoughData` — the
NeedsMore error — not to `BadData` (Malformed) as the claim states. -/
theorem subscribe_zero_entries_counterexample :
    (subscribePacketReadFrom subscribeDefault
        [0x82, 0x03, 0x00, 0x01, 0x00]).2 = NotEnoughData ∧
    NotEnoughData ≠ BadData := by
  refine ⟨rfl, by decide⟩

/-- C9 amended: every complete SUBSCRIBE frame whose remaining length
covers exactly the packet identifier and a well-formed property list —
zero subscription entries — parses to the `NotEnoughData` (NeedsMore)
error: the payload reader hands the empty remainder to
`SubscribeTopic::readFrom`, whose topic-string read fails with
`NotEnoughData` rather than `BadData`.  (Stated for single-byte
remaining lengths.) -/
theorem subscribe_zero_entries_needsmore (hi lo : Nat) (pbytes : List Nat)
    (ps : Properties) (c : Nat)
    (hp : Properties.readFrom pbytes = (ps, c))
    (he : isError c = false)
    (hc : c = pbytes.length)
    (hr : 2 + pbytes.length ≤ 127) :
    (subscribePacketReadFrom subscribeDefault
      (0x82 :: (2 + pbytes.length) :: hi :: lo :: pbytes)).2 = NotEnoughData := by
  have hlen : 1 ≤ pbytes.length := by
    rcases pbytes with _ | ⟨b, t⟩
    · have hc2 := congrArg Prod.snd hp
      simp only [] at hc2
      rw [show (Properties.readFrom []).2 = NotEnoughData from rfl] at hc2
      rw [← hc2, isError_NotEnoughData] at he
      exact absurd he (by simp)
    · simp
  have hcon : ps.getSize = c := by
    have h0 := properties_readFrom_consumed pbytes (by rw [hp]; exact he)
    rw [hp] at h0
    exact h0.symm
  have e1 : VBInt.readFrom ((2 + pbytes.length) :: hi :: lo :: pbytes) =
      (⟨[2 + pbytes.length], 1⟩, 1) := by
    simp only [VBInt.readFrom]
    rw [if_pos (by omega)]
  have etou : VBInt.toUInt32 ⟨[2 + pbytes.length], 1⟩ = 2 + pbytes.length := by
    rw [toUInt32_one]
    exact and_0x7F_of_lt _ (by omega)
  have e2 : FixedFieldWithID.readFrom ⟨0⟩ (2 + pbytes.length)
      (hi :: lo :: pbytes) = (⟨hi * 256 + lo⟩, 2) := by
    unfold FixedFieldWithID.readFrom
    rw [if_neg (by simp), if_neg (by omega)]
    rfl
  have eint : (((2 + pbytes.length : Nat) : Int) -
      (FixedFieldWithID.getSize ⟨hi * 256 + lo⟩ : Nat) -
      (ps.getSize : Nat)).emod (2 ^ 32) = 0 := by
    rw [show FixedFieldWithID.getSize ⟨hi * 256 + lo⟩ = 2 from rfl]
    rw [hcon, hc]
    push_cast
    have : ((2 : Int) + pbytes.length - 2 - pbytes.length) = 0 := by ring
    rw [this]
    rfl
  unfold subscribePacketReadFrom controlPacketReadFrom
  rw [if_neg (show ¬ ((0x82 :: (2 + pbytes.length) :: hi :: lo ::
    pbytes).length < 2) from by simp)]
  simp only [controlPacketReadBody, subscribeDefault, List.headD_cons,
    List.tail_cons]
  rw [e1]
  try simp only []
  rw [show isError 1 = false from rfl]
  rw [if_neg (show ¬ (false = true) from by simp)]
  rw [etou, List.drop_one, List.tail_cons]
  rw [if_neg (show ¬ ((hi :: lo :: pbytes).length < 2 + pbytes.length) from by
    simp only [List.length_cons]; omega)]
  try simp only []
  rw [e2]
  try simp only []
  rw [show isError 2 = false from rfl]
  rw [if_neg (show ¬ (false = true) from by simp)]
  rw [show List.drop 2 (hi :: lo :: pbytes) = pbytes from rfl]
  rw [hp]
  try simp only []
  rw [if_neg (show ¬ (isError c = true) from by rw [he]; simp)]
  rw [eint]
  simp only [Int.toNat_zero]
  unfold subscribePayloadReadFrom
  rw [if_neg (show ¬ ((List.drop c pbytes).length < 0) from by omega)]
  rw [show List.take 0 (List.drop c pbytes) = [] from rfl]
  rw [show subscribeTopicsReadLoop (0 + 1) [] = ([], NotEnoughData) from rfl]
  try simp only []
  rw [if_pos isError_NotEnoughData]

/-- Witness for `subscribe_zero_entries_needsmore` at packet identifier
1 with the empty property list byte `0x00` (the frame `82 03 00 01 00`). -/
theorem subscribe_zero_entries_needsmore_witness :
    (subscribePacketReadFrom subscribeDefault
      (0x82 :: (2 + ([0x00] : List Nat).length) :: 0x00 :: 0x01 :: [0x00])).2 =
      NotEnoughData :=
  subscribe_zero_entries_needsmore 0x00 0x01 [0x00] ⟨⟨[0], 1⟩, []⟩ 1 rfl rfl rfl
    (by decide)

/-- C4: the PUBACK-family shortcut rule (the fixed field is shared by
PUBACK, PUBREC, PUBREL, PUBCOMP).  A frame with remaining length 2
parses successfully into the big-endian packet identifier with the
reason code left at its default `Success` (0) and the property list left
empty; remaining length 3 additionally takes the third body byte as the
reason code with the property list still empty; with remaining length at
least 4 (stated here for single-byte remaining lengths) the property
list is parsed from the bytes after the reason code.  In particular the
frame `40 02 12 34` parses to identifier `0x1234`, reason `Success` and
empty properties, consuming 4 bytes. -/
theorem puback_shortcut_parse (hi lo r : Nat) :
    pubackPacketReadFrom pubackDefault [0x40, 2, hi, lo] =
      ((0x40, ⟨[2], 1⟩, ⟨hi * 256 + lo, 0⟩, emptyProperties, ()), 4) ∧
    pubackPacketReadFrom pubackDefault [0x40, 3, hi, lo, r] =
      ((0x40, ⟨[3], 1⟩, ⟨hi * 256 + lo, r⟩, emptyProperties, ()), 5) ∧
    (∀ (pbytes : List Nat) (ps : Properties) (c : Nat),
      Properties.readFrom pbytes = (ps, c) → isError c = false →
      c = pbytes.length → 3 + pbytes.length ≤ 127 →
      (pubackPacketReadFrom pubackDefault
          (0x40 :: (3 + pbytes.length) :: hi :: lo :: r :: pbytes)).1 =
        (0x40, ⟨[3 + pbytes.length], 1⟩, ⟨hi * 256 + lo, r⟩, ps, ()) ∧
      (pubackPacketReadFrom pubackDefault
          (0x40 :: (3 + pbytes.length) :: hi :: lo :: r :: pbytes)).2 =
        5 + pbytes.length) ∧
    pubackPacketReadFrom pubackDefault [0x40, 0x02, 0x12, 0x34] =
      ((0x40, ⟨[2], 1⟩, ⟨0x1234, 0⟩, emptyProperties, ()), 4) := by
  refine ⟨?_, ?_, ?_, by rfl⟩
  · unfold pubackPacketReadFrom controlPacketReadFrom
    rw [if_neg (show ¬ (([0x40, 2, hi, lo] : List Nat).length < 2) from by simp)]
    simp only [controlPacketReadBody, pubackDefault, List.headD_cons,
      List.tail_cons]
    rw [show VBInt.readFrom [2, hi, lo] = (⟨[2], 1⟩, 1) from by
      simp only [VBInt.readFrom]; rw [if_pos (by omega)]]
    try simp only []
    rw [show isError 1 = false from rfl]
    rw [if_neg (show ¬ (false = true) from by simp)]
    rw [show VBInt.toUInt32 ⟨[2], 1⟩ = 2 from rfl, List.drop_one, List.tail_cons]
    rw [if_neg (show ¬ (([hi, lo] : List Nat).length < 2) from by simp)]
    try simp only []
    rw [show FixedFieldWithIDAndReason.readFrom ⟨0, 0⟩ 2 [hi, lo] =
        (⟨hi * 256 + lo, 0⟩, Shortcut) from by
      unfold FixedFieldWithIDAndReason.readFrom
      rw [if_neg (show ¬ (([hi, lo] : List Nat).length < 2) from by simp),
        if_pos (show (2 : Nat) = 2 from rfl)]
      rfl]
    try simp only []
    rw [if_pos isError_Shortcut]
    rw [if_pos (show isShortcut Shortcut = true from rfl)]
  · unfold pubackPacketReadFrom controlPacketReadFrom
    rw [if_neg (show ¬ (([0x40, 3, hi, lo, r] : List Nat).length < 2) from by
      simp)]
    simp only [controlPacketReadBody, pubackDefault, List.headD_cons,
      List.tail_cons]
    rw [show VBInt.readFrom [3, hi, lo, r] = (⟨[3], 1⟩, 1) from by
      simp only [VBInt.readFrom]; rw [if_pos (by omega)]]
    try simp only []
    rw [show isError 1 = false from rfl]
    rw [if_neg (show ¬ (false = true) from by simp)]
    rw [show VBInt.toUInt32 ⟨[3], 1⟩ = 3 from rfl, List.drop_one, List.tail_cons]
    rw [if_neg (show ¬ (([hi, lo, r] : List Nat).length < 3) from by simp)]
    try simp only []
    rw [show FixedFieldWithIDAndReason.readFrom ⟨0, 0⟩ 3 [hi, lo, r] =
        (⟨hi * 256 + lo, r⟩, Shortcut) from by
      unfold FixedFieldWithIDAndReason.readFrom
      rw [if_neg (show ¬ (([hi, lo, r] : List Nat).length < 2) from by simp),
        if_neg (show ¬ ((3 : Nat) = 2) from by omega),
        if_pos (show (3 : Nat) = 3 from rfl)]
      rfl]
    try simp only []
    rw [if_pos isError_Shortcut]
    rw [if_pos (show isShortcut Shortcut = true from rfl)]
  intro pbytes ps c hp he hc hr
  have hlen : 1 ≤ pbytes.length := by
    rcases pbytes with _ | ⟨b, t⟩
    · have hc2 := congrArg Prod.snd hp
      simp only [] at hc2
      rw [show (Properties.readFrom []).2 = NotEnoughData from rfl] at hc2
      rw [← hc2, isError_NotEnoughData] at he
      exact absurd he (by simp)
    · simp
  have hcon : ps.getSize = c := by
    have h0 := properties_readFrom_consumed pbytes (by rw [hp]; exact he)
    rw [hp] at h0
    exact h0.symm
  have e1 : VBInt.readFrom ((3 + pbytes.length) :: hi :: lo :: r :: pbytes) =
      (⟨[3 + pbytes.length], 1⟩, 1) := by
    simp only [VBInt.readFrom]
    rw [if_pos (by omega)]
  have etou : VBInt.toUInt32 ⟨[3 + pbytes.length], 1⟩ = 3 + pbytes.length := by
    rw [toUInt32_one]
    exact and_0x7F_of_lt _ (by omega)
  have e2 : FixedFieldWithIDAndReason.readFrom ⟨0, 0⟩ (3 + pbytes.length)
      (hi :: lo :: r :: pbytes) = (⟨hi * 256 + lo, r⟩, 3) := by
    unfold FixedFieldWithIDAndReason.readFrom
    rw [if_neg (show ¬ ((hi :: lo :: r :: pbytes).length < 2) from by simp),
      if_neg (show ¬ (3 + pbytes.length = 2) from by omega),
      if_neg (show ¬ (3 + pbytes.length = 3) from by omega)]
    rfl
  have eint : (((3 + pbytes.length : Nat) : Int) -
      (FixedFieldWithIDAndReason.getSize ⟨hi * 256 + lo, r⟩ : Nat) -
      (ps.getSize : Nat)).emod (2 ^ 32) = 0 := by
    rw [show FixedFieldWithIDAndReason.getSize ⟨hi * 256 + lo, r⟩ = 3 from rfl]
    rw [hcon, hc]
    push_cast
    have h9 : ((3 : Int) + pbytes.length - 3 - pbytes.length) = 0 := by ring
    rw [h9]
    rfl
  have E : pubackPacketReadFrom pubackDefault
      (0x40 :: (3 + pbytes.length) :: hi :: lo :: r :: pbytes) =
      ((0x40, ⟨[3 + pbytes.length], 1⟩, ⟨hi * 256 + lo, r⟩, ps, ()),
        1 + 1 + 3 + c + 0) := by
    unfold pubackPacketReadFrom controlPacketReadFrom
    rw [if_neg (show ¬ ((0x40 :: (3 + pbytes.length) :: hi :: lo :: r ::
      pbytes).length < 2) from by simp)]
    simp only [controlPacketReadBody, pubackDefault, List.headD_cons,
      List.tail_cons]
    rw [e1]
    try simp only []
    rw [show isError 1 = false from rfl]
    rw [if_neg (show ¬ (false = true) from by simp)]
    rw [etou, List.drop_one, List.tail_cons]
    rw [if_neg (show ¬ ((hi :: lo :: r :: pbytes).length < 3 + pbytes.length)
      from by simp only [List.length_cons]; omega)]
    try simp only []
    rw [e2]
    try simp only []
    rw [show isError 3 = false from rfl]
    rw [if_neg (show ¬ (false = true) from by simp)]
    rw [show List.drop 3 (hi :: lo :: r :: pbytes) = pbytes from rfl]
    rw [hp]
    try simp only []
    rw [if_neg (show ¬ (isError c = true) from by rw [he]; simp)]
    rw [eint]
    simp only [Int.toNat_zero]
    rfl
  rw [E]
  exact ⟨rfl, by simp only []; omega⟩

/-- Witness for `puback_shortcut_parse`: the frame `40 04 12 34 10 00`
(remaining length 4, reason code `0x10`, empty property list) parses to
identifier `0x1234`, reason `0x10` and the one-byte empty property
list, consuming 6 bytes. -/
theorem puback_shortcut_parse_witness :
    (pubackPacketReadFrom pubackDefault
        (0x40 :: (3 + ([0x00] : List Nat).length) :: 0x12 :: 0x34 :: 0x10 ::
          [0x00])).1 =
      (0x40, ⟨[3 + ([0x00] : List Nat).length], 1⟩, ⟨0x12 * 256 + 0x34, 0x10⟩,
        ⟨⟨[0], 1⟩, []⟩, ()) ∧
    (pubackPacketReadFrom pubackDefault
        (0x40 :: (3 + ([0x00] : List Nat).length) :: 0x12 :: 0x34 :: 0x10 ::
          [0x00])).2 = 5 + ([0x00] : List Nat).length :=
  (puback_shortcut_parse 0x12 0x34 0x10).2.2.1 [0x00] ⟨⟨[0], 1⟩, []⟩ 1 rfl rfl
    rfl (by decide)

/-- The QoS-bit test `flags & 6 > 0` used by `hasPacketID` agrees with
`getQoS(flags) > 0`: bit 0 of `flags &&& 6` is always clear, so halving
preserves positivity. -/
theorem hasPacketID_eq_qos_pos (flags : Nat) :
    hasPacketID flags = decide (0 < publishGetQoS flags) := by
  have h1 : (flags &&& 6) % 2 = 0 := by
    rw [← Nat.and_one_is_mod, Nat.and_assoc]
    rw [show (6 : Nat) &&& 1 = 0 from rfl, Nat.and_zero]
  unfold hasPacketID publishGetQoS
  rw [Nat.shiftRight_eq_div_pow, pow_one]
  rw [decide_eq_decide]
  omega

/-- Parsing a serialized string with trailing bytes recovers the string
and consumes its serialized size. -/
theorem dynString_readFrom_copyInto (s : DynamicString) (rest : List Nat)
    (h : s.data.length < 65536) :
    DynamicString.readFrom (s.copyInto ++ rest) = (s, s.data.length + 2) := by
  have hshape : s.copyInto ++ rest =
      (s.data.length / 256 % 256) :: (s.data.length % 256) ::
        (s.data ++ rest) := by
    simp [DynamicString.copyInto, be16]
  rw [hshape]
  unfold DynamicString.readFrom
  rw [if_neg (show ¬ (((s.data.length / 256 % 256) :: (s.data.length % 256) ::
    (s.data ++ rest)).length < 2) from by simp)]
  try simp only []
  simp only [List.getD_cons_zero, List.getD_cons_succ, List.length_cons,
    List.length_append]
  rw [show s.data.length / 256 % 256 * 256 + s.data.length % 256 =
    s.data.length from by omega]
  rw [if_neg (show ¬ (s.data.length + 2 >
    s.data.length + rest.length + 1 + 1) from by omega)]
  try simp only []
  rw [show List.drop 2 ((s.data.length / 256 % 256) ::
    (s.data.length % 256) :: (s.data ++ rest)) = s.data ++ rest from rfl]
  rw [List.take_left]

/-- C6: for PUBLISH the packet identifier travels in the variable header
exactly when the QoS bits of the fixed-header flag nibble are positive.
`hasPacketID` coincides with `getQoS(flags) > 0`; the size and the
serialized bytes include the two identifier bytes exactly in that case;
parsing a serialized header recovers only the topic name when QoS is 0
and additionally the big-endian identifier when QoS is positive. -/
theorem publish_packetID_iff_qos (f0 f : FixedFieldPUBLISH) (flags : Nat)
    (rest : List Nat) (h : f.topicName.data.length < 65536) :
    hasPacketID flags = decide (0 < publishGetQoS flags) ∧
    FixedFieldPUBLISH.getSize f flags =
      f.topicName.getSize + (if 0 < publishGetQoS flags then 2 else 0) ∧
    FixedFieldPUBLISH.copyInto f flags =
      f.topicName.copyInto ++
        (if 0 < publishGetQoS flags then be16 f.packetID else []) ∧
    (publishGetQoS flags = 0 →
      FixedFieldPUBLISH.readFrom f0 flags
          (FixedFieldPUBLISH.copyInto f flags ++ rest) =
        ({ f0 with topicName := f.topicName }, f.topicName.getSize)) ∧
    (0 < publishGetQoS flags → f.packetID < 65536 →
      FixedFieldPUBLISH.readFrom f0 flags
          (FixedFieldPUBLISH.copyInto f flags ++ rest) =
        (⟨f.topicName, f.packetID⟩, f.topicName.getSize + 2)) := by
  have hq := hasPacketID_eq_qos_pos flags
  refine ⟨hq, ?_, ?_, ?_, ?_⟩
  · rw [FixedFieldPUBLISH.getSize, hq]
    by_cases hc : 0 < publishGetQoS flags <;> simp [hc]
  · rw [FixedFieldPUBLISH.copyInto, hq]
    by_cases hc : 0 < publishGetQoS flags <;> simp [hc]
  · intro h0
    have hfalse : hasPacketID flags = false := by
      rw [hq, h0]
      simp
    have hcopy : FixedFieldPUBLISH.copyInto f flags =
        f.topicName.copyInto := by
      rw [FixedFieldPUBLISH.copyInto, hfalse]
      simp
    rw [hcopy]
    unfold FixedFieldPUBLISH.readFrom
    rw [dynString_readFrom_copyInto f.topicName rest h]
    try simp only []
    rw [if_neg (show ¬ (isError (f.topicName.data.length + 2) = true) from by
      rw [isError_eq_false (by omega)]
      simp)]
    rw [hfalse]
    try simp only []
    rw [if_neg (show ¬ (false = true) from by simp)]
    rfl
  · intro hpos hpid
    have htrue : hasPacketID flags = true := by
      rw [hq]
      simpa using hpos
    have hcopy : FixedFieldPUBLISH.copyInto f flags =
        f.topicName.copyInto ++ be16 f.packetID := by
      rw [FixedFieldPUBLISH.copyInto, htrue]
      simp
    rw [hcopy, List.append_assoc]
    unfold FixedFieldPUBLISH.readFrom
    rw [dynString_readFrom_copyInto f.topicName (be16 f.packetID ++ rest) h]
    try simp only []
    rw [if_neg (show ¬ (isError (f.topicName.data.length + 2) = true) from by
      rw [isError_eq_false (by omega)]
      simp)]
    rw [htrue]
    try simp only []
    rw [List.drop_left' (show f.topicName.copyInto.length =
      f.topicName.data.length + 2 from by rw [dynString_copyInto_length]; rfl)]
    rw [show be16 f.packetID ++ rest = (f.packetID / 256 % 256) ::
      (f.packetID % 256) :: rest from by simp [be16]]
    rw [if_neg (show ¬ (((f.packetID / 256 % 256) :: (f.packetID % 256) ::
      rest).length < 2) from by simp)]
    try simp only []
    simp only [List.getD_cons_zero, List.getD_cons_succ]
    rw [show f.packetID / 256 % 256 * 256 + f.packetID % 256 = f.packetID
      from by omega]
    rw [if_pos trivial]
    rfl

/-- Witness for `publish_packetID_iff_qos`: a QoS-1 PUBLISH header
(flags byte `0x32`) with topic `"a"` and identifier `0x1234`
round-trips, consuming the topic plus two identifier bytes. -/
theorem publish_packetID_iff_qos_witness :
    FixedFieldPUBLISH.readFrom ⟨⟨[]⟩, 0⟩ 0x32
        (FixedFieldPUBLISH.copyInto ⟨⟨[0x61]⟩, 0x1234⟩ 0x32 ++ []) =
      (⟨⟨[0x61]⟩, 0x1234⟩, (⟨[0x61]⟩ : DynamicString).getSize + 2) :=
  (publish_packetID_iff_qos ⟨⟨[]⟩, 0⟩ ⟨⟨[0x61]⟩, 0x1234⟩ 0x32 []
    (by decide)).2.2.2.2 (by decide) (by decide)

/-- Every branch of the generic body returns the header byte it was
handed, unchanged. -/
theorem controlPacketReadBody_headerByte {F P L : Type}
    (fvhRead : F → Nat → Nat → List Nat → F × Nat)
    (fvhSize : F → Nat) (propsRead : List Nat → P × Nat)
    (propsSize : P → Nat) (payloadRead : L → Nat → List Nat → L × Nat)
    (f0 : F) (p0 : P) (l0 : L) (hdr : Nat) (buf1 : List Nat) :
    (controlPacketReadBody fvhRead fvhSize propsRead propsSize payloadRead
      f0 p0 l0 hdr buf1).1.1 = hdr := by
  simp only [controlPacketReadBody]
  repeat' split
  all_goals rfl

/-- The generic body only consults the header byte through `fvhRead`:
if `fvhRead` answers the same on two header bytes, the parse results
agree except for the stored byte itself. -/
theorem controlPacketReadBody_header_congr {F P L : Type}
    (fvhRead : F → Nat → Nat → List Nat → F × Nat)
    (fvhSize : F → Nat) (propsRead : List Nat → P × Nat)
    (propsSize : P → Nat) (payloadRead : L → Nat → List Nat → L × Nat)
    (f0 : F) (p0 : P) (l0 : L) (hdr hdr' : Nat) (buf1 : List Nat)
    (hf : ∀ f rem buf, fvhRead f hdr rem buf = fvhRead f hdr' rem buf) :
    ((controlPacketReadBody fvhRead fvhSize propsRead propsSize payloadRead
        f0 p0 l0 hdr buf1).1.2,
      (controlPacketReadBody fvhRead fvhSize propsRead propsSize payloadRead
        f0 p0 l0 hdr buf1).2) =
    ((controlPacketReadBody fvhRead fvhSize propsRead propsSize payloadRead
        f0 p0 l0 hdr' buf1).1.2,
      (controlPacketReadBody fvhRead fvhSize propsRead propsSize payloadRead
        f0 p0 l0 hdr' buf1).2) := by
  simp only [controlPacketReadBody]
  rw [hf]
  repeat' split
  all_goals rfl

/-- C10: the generic `ControlPacket::readFrom` never compares the type
nibble of byte 0 against the packet's own type: the byte is stored
as-is whatever its high nibble is, and two buffers differing only in
that byte (with the fixed-field reader answering alike on both, as it
does for every non-PUBLISH type and for PUBLISH whenever the flag
nibbles agree) parse to the same remaining length, fixed field,
properties, payload and return code.  The separate `check()` pass
(`fixedHeaderTypeCheck`) consults only the low flag nibble.  Type
dispatch is therefore entirely the caller's job via `checkHeader`. -/
theorem controlPacket_ignores_type_nibble {F P L : Type}
    (fvhRead : F → Nat → Nat → List Nat → F × Nat)
    (fvhSize : F → Nat) (propsRead : List Nat → P × Nat)
    (propsSize : P → Nat) (payloadRead : L → Nat → List Nat → L × Nat)
    (init : Nat × VBInt × F × P × L) (b b' : Nat) (rest : List Nat)
    (hf : ∀ f rem buf, fvhRead f b rem buf = fvhRead f b' rem buf)
    (hnib : b &&& 0xF = b' &&& 0xF) (hlen : 1 ≤ rest.length) :
    (controlPacketReadFrom fvhRead fvhSize propsRead propsSize payloadRead
        init (b :: rest)).1.1 = b ∧
    (controlPacketReadFrom fvhRead fvhSize propsRead propsSize payloadRead
        init (b' :: rest)).1.1 = b' ∧
    ((controlPacketReadFrom fvhRead fvhSize propsRead propsSize payloadRead
        init (b :: rest)).1.2,
      (controlPacketReadFrom fvhRead fvhSize propsRead propsSize payloadRead
        init (b :: rest)).2) =
    ((controlPacketReadFrom fvhRead fvhSize propsRead propsSize payloadRead
        init (b' :: rest)).1.2,
      (controlPacketReadFrom fvhRead fvhSize propsRead propsSize payloadRead
        init (b' :: rest)).2) ∧
    (∀ flags, fixedHeaderTypeCheck flags b = fixedHeaderTypeCheck flags b') := by
  have hge : ¬ ((b :: rest).length < 2) := by
    simp only [List.length_cons]
    omega
  have hge' : ¬ ((b' :: rest).length < 2) := by
    simp only [List.length_cons]
    omega
  refine ⟨?_, ?_, ?_, ?_⟩
  · unfold controlPacketReadFrom
    rw [if_neg hge]
    simp only [List.headD_cons, List.tail_cons]
    exact controlPacketReadBody_headerByte fvhRead fvhSize propsRead propsSize
      payloadRead init.2.2.1 init.2.2.2.1 init.2.2.2.2 b rest
  · unfold controlPacketReadFrom
    rw [if_neg hge']
    simp only [List.headD_cons, List.tail_cons]
    exact controlPacketReadBody_headerByte fvhRead fvhSize propsRead propsSize
      payloadRead init.2.2.1 init.2.2.2.1 init.2.2.2.2 b' rest
  · unfold controlPacketReadFrom
    rw [if_neg hge, if_neg hge']
    simp only [List.headD_cons, List.tail_cons]
    exact controlPacketReadBody_header_congr fvhRead fvhSize propsRead
      propsSize payloadRead init.2.2.1 init.2.2.2.1 init.2.2.2.2 b b' rest hf
  · intro flags
    unfold fixedHeaderTypeCheck
    rw [hnib]

/-- Witness for `controlPacket_ignores_type_nibble`: the PUBACK reader
parses `40 02 12 34` and `F0 02 12 34` (an AUTH type nibble with the
same zero flag nibble) to identical results apart from the stored first
byte. -/
theorem controlPacket_ignores_type_nibble_witness :
    (controlPacketReadFrom (fun (f : FixedFieldWithIDAndReason) _ rem buf => f.readFrom rem buf)
        FixedFieldWithIDAndReason.getSize Properties.readFrom
        Properties.getSize emptyPayloadRead pubackDefault
        (0x40 :: [0x02, 0x12, 0x34])).1.1 = 0x40 ∧
    (controlPacketReadFrom (fun (f : FixedFieldWithIDAndReason) _ rem buf => f.readFrom rem buf)
        FixedFieldWithIDAndReason.getSize Properties.readFrom
        Properties.getSize emptyPayloadRead pubackDefault
        (0xF0 :: [0x02, 0x12, 0x34])).1.1 = 0xF0 ∧
    ((controlPacketReadFrom (fun (f : FixedFieldWithIDAndReason) _ rem buf => f.readFrom rem buf)
        FixedFieldWithIDAndReason.getSize Properties.readFrom
        Properties.getSize emptyPayloadRead pubackDefault
        (0x40 :: [0x02, 0x12, 0x34])).1.2,
      (controlPacketReadFrom (fun (f : FixedFieldWithIDAndReason) _ rem buf => f.readFrom rem buf)
        FixedFieldWithIDAndReason.getSize Properties.readFrom
        Properties.getSize emptyPayloadRead pubackDefault
        (0x40 :: [0x02, 0x12, 0x34])).2) =
    ((controlPacketReadFrom (fun (f : FixedFieldWithIDAndReason) _ rem buf => f.readFrom rem buf)
        FixedFieldWithIDAndReason.getSize Properties.readFrom
        Properties.getSize emptyPayloadRead pubackDefault
        (0xF0 :: [0x02, 0x12, 0x34])).1.2,
      (controlPacketReadFrom (fun (f : FixedFieldWithIDAndReason) _ rem buf => f.readFrom rem buf)
        FixedFieldWithIDAndReason.getSize Properties.readFrom
        Properties.getSize emptyPayloadRead pubackDefault
        (0xF0 :: [0x02, 0x12, 0x34])).2) ∧
    (∀ flags, fixedHeaderTypeCheck flags 0x40 = fixedHeaderTypeCheck flags
      0xF0) := by
  exact controlPacket_ignores_type_nibble (fun (f : FixedFieldWithIDAndReason) _ rem buf => f.readFrom rem buf)
    FixedFieldWithIDAndReason.getSize Properties.readFrom Properties.getSize
    emptyPayloadRead pubackDefault 0x40 0xF0 [0x02, 0x12, 0x34]
    (fun _ _ _ => rfl) (by decide) (by decide)

/-- Witness for `checkPropertiesFor_rejects_disallowed`: Topic Alias
(0x23) is allowed in PUBLISH and User Property (0x26) is allowed in
CONNECT. -/
theorem checkPropertiesFor_rejects_disallowed_witness :
    isAllowedProperty 0x23 PUBLISH = true ∧
    isAllowedProperty 0x26 CONNECT = true :=
  ⟨((checkPropertiesFor_rejects_disallowed emptyProperties 0
      ⟨emptyProperties, ⟨[]⟩, ⟨[]⟩⟩).2.2.1 PUBLISH (by decide)).mpr rfl,
    (checkPropertiesFor_rejects_disallowed emptyProperties 0
      ⟨emptyProperties, ⟨[]⟩, ⟨[]⟩⟩).2.2.2.2 CONNECT (by decide)⟩
